import Mathlib

/-!
Verification development for the dremio-benchmark repository.

This file gives a shallow embedding, in Lean 4, of the job-orchestration and
polling core of the repository:

* the job-status polling loop of
  `dremio_benchmark/test-automation/run_benchmarks.py` (`DremioBenchmark._poll_job_status`,
  `DremioBenchmark.run_query`) and of
  `dremio_benchmark/cross-cluster-setup/setup_cross_cluster.py`
  (`DremioClient._poll_job_status`) — both loops are textually identical;
* the pipeline-step loop of `main.py` (`main`) together with the canonical
  step list of `dremio_benchmark/utils/constants.py`;
* the configuration resolver of `utils/config.py` (`Config._apply_environment_overrides`
  and `Config.validate`);
* the command runner of `utils/command.py` (`CommandExecutor.run_shell_command`);
* the summary/comparison computation of `reports/generate_report.py`
  (`generate_summary_statistics`, `generate_comparison_report`), including the
  pandas Series-to-DataFrame index-alignment semantics the source relies on;
* the per-table upload loops of `hdfs-upload/upload_to_hdfs.py`
  (`upload_to_simple_auth_hdfs`, `upload_to_kerberized_hdfs`).

JSON documents, YAML configuration documents and Python dictionaries are
modelled as insertion-ordered association lists (`CDict`), matching Python
dict semantics: updating an existing key keeps its position, inserting a new
key appends at the end.  Remote interactions (HTTP requests, subprocesses,
the local filesystem) are modelled as explicit oracles passed to the embedded
functions: a response stream for polling, outcome values for subprocesses.
Python exceptions are modelled with `Option`/`Except`: a result of `none`
(resp. `.error`) marks an execution on which the Python source raises.
-/

namespace DremioBench

/-- Value of a YAML/JSON document or of a Python dictionary entry, as
manipulated by `utils/config.py` and by the polling code. -/
inductive CVal where
  | str (s : String)
  | int (n : Int)
  | bool (b : Bool)
  | list (xs : List CVal)
  | dict (d : List (String × CVal))

/-- Python dictionary with string keys, in insertion order. -/
abbrev CDict := List (String × CVal)

/-- Python `d.get(k)` / `k in d` lookup on a dictionary. -/
def getD (d : CDict) (k : String) : Option CVal :=
  match d with
  | [] => none
  | (k₀, v₀) :: t => if k₀ = k then some v₀ else getD t k

/-- Python `d[k] = v`: update in place if the key exists (keeping its
position), otherwise append at the end. -/
def setD (d : CDict) (k : String) (v : CVal) : CDict :=
  match d with
  | [] => [(k, v)]
  | (k₀, v₀) :: t => if k₀ = k then (k, v) :: t else (k₀, v₀) :: setD t k v

end DremioBench

namespace DremioBench

/-! ### Job-status polling (`_poll_job_status` in run_benchmarks.py and setup_cross_cluster.py) -/

/-- Outcome of one `requests.get(job_url)` status request, as seen by the
polling loop: either a JSON document (already through `raise_for_status` and
`.json()`), or a raised transport exception with its text. -/
inductive PollResp where
  | ok (doc : CDict)
  | exn (msg : String)

/-- Terminal-state test of the loop:
`job_status.get("jobState") in ["COMPLETED", "FAILED", "CANCELED"]`. -/
def isTerminalDoc (doc : CDict) : Bool :=
  match getD doc "jobState" with
  | some (.str s) => s = "COMPLETED" ∨ s = "FAILED" ∨ s = "CANCELED"
  | _ => false

/-- Synthetic document returned on deadline expiry: `{"jobState": "TIMEOUT"}`. -/
def timeoutDoc : CDict := [("jobState", .str "TIMEOUT")]

/-- Synthetic document returned on a caught exception:
`{"jobState": "ERROR", "error": str(e)}`. -/
def errorDoc (msg : String) : CDict :=
  [("jobState", .str "ERROR"), ("error", .str msg)]

/-- Polling loop of `_poll_job_status`, from iteration `n` on.  Time is
modelled by iteration count: the status request of iteration `n` happens at
elapsed time `n * interval` seconds (each `time.sleep(interval)` advances the
clock by `interval`; requests are instantaneous).  `resp n` is the outcome of
the status request of iteration `n`.  The result pairs the returned job
document with the total number of status requests performed — the latter is
instrumentation observing the trace, not part of the source.  The source
checks, in order: terminal state (return it), elapsed deadline (return the
synthetic TIMEOUT document), then sleeps and repeats; any exception is caught
and converted to the synthetic ERROR document.  `hpos` reflects that the loop
is only used with a positive interval (the source's default, `interval=1`,
is the only value ever passed). -/
def pollLoop (resp : Nat → PollResp) (timeout interval : Nat)
    (hpos : 0 < interval) (n : Nat) : CDict × Nat :=
  match resp n with
  | .exn msg => (errorDoc msg, n + 1)
  | .ok doc =>
      if isTerminalDoc doc then (doc, n + 1)
      else if htime : n * interval > timeout then (timeoutDoc, n + 1)
      else pollLoop resp timeout interval hpos (n + 1)
termination_by timeout + 1 - n
decreasing_by
  simp_wf
  simp only [not_lt] at htime
  have hn : n ≤ n * interval := by
    simpa using Nat.mul_le_mul (le_refl n) hpos
  omega

/-- Model of `_poll_job_status(job_id, timeout, interval)`: the polling loop
started at iteration 0, returning the job document together with the number
of status requests performed. -/
def pollJobStatus (resp : Nat → PollResp) (timeout interval : Nat)
    (hpos : 0 < interval) : CDict × Nat :=
  pollLoop resp timeout interval hpos 0

/-- Remote status document with state RUNNING (a non-terminal state). -/
def runningDoc : CDict := [("jobState", .str "RUNNING")]

/-- Remote status document with state COMPLETED (a terminal state). -/
def completedDoc : CDict := [("jobState", .str "COMPLETED")]

/-- Response stream used against claim C1: RUNNING at the two fetches that
fall within a deadline of 1 second (elapsed 0 and 1), COMPLETED from the
first post-deadline fetch on. -/
def respC1 : Nat → PollResp :=
  fun n => if n < 2 then .ok runningDoc else .ok completedDoc

/-- Response stream of claim C2's witness: RUNNING on the first fetch, then
a transport exception. -/
def respC2 : Nat → PollResp :=
  fun n => if n = 0 then .ok runningDoc else .exn "Connection aborted"

/-- Response stream of claim C3's concrete scenario: RUNNING on the first
status request, COMPLETED on the second. -/
def respC3 : Nat → PollResp :=
  fun n => if n = 0 then .ok runningDoc else .ok completedDoc

/-! ### Submit-and-poll (`DremioBenchmark.run_query` in run_benchmarks.py) -/

/-- Outcome of the `requests.post(sql_url, ...)` submission (through
`raise_for_status` and `.json()`): a JSON document, or a raised exception. -/
inductive SubmitResp where
  | ok (doc : CDict)
  | exn (msg : String)

/-- Python `None` embedded as a dictionary value (`dict.get` of a missing
key). -/
def optToVal (o : Option CVal) : CVal := o.getD (.dict [])

/-- Python comparison `doc.get("jobState") == s` (false on a missing key or
a non-string value). -/
def jobStateIs (doc : CDict) (s : String) : Bool :=
  match getD doc "jobState" with
  | some (.str t) => t = s
  | _ => false

/-- Model of `DremioBenchmark.run_query(query, query_name)`.

Inputs model the interactions: `hasToken` whether `self.token` is set,
`loginOk` the outcome of `login()` when invoked, `submit` the submission
response, `resp` the stream of status-request outcomes consumed by
`_poll_job_status` (called with its defaults `timeout=3600, interval=1`),
`profile` the `_get_job_profile` result (`none` models its internal failure
path, which returns `None`).

The result is `none` when `run_query` returns `None` (login failure);
otherwise the metrics dictionary paired with the number of status requests
performed by polling (the profile request of a COMPLETED job goes to the
separate `/job/{id}/profile` endpoint and is not a status request).  The
wall-clock fields `execution_time` and `timestamp` of the metrics dictionary
are real-time measurements and are not modelled; `optToVal` stands for the
embedding of Python `None` results of `.get`, rendered as an empty value.  -/
def runQuery (hasToken loginOk : Bool) (queryName : CVal) (query : String)
    (submit : SubmitResp) (resp : Nat → PollResp) (profile : Option CDict) :
    Option (CDict × Nat) :=
  if hasToken = false ∧ loginOk = false then none
  else
    match submit with
    | .exn msg =>
        some ([("query_name", queryName),
               ("job_id", .dict []),
               ("status", .str "FAILED"),
               ("error", .str msg),
               ("query", .str query)], 0)
    | .ok doc =>
        let jobId := getD doc "id"
        let pr := pollJobStatus resp 3600 1 (by decide)
        let jobDoc := pr.1
        let metrics : CDict :=
          [("query_name", queryName),
           ("job_id", optToVal jobId),
           ("status", optToVal (getD jobDoc "jobState")),
           ("query", .str query)]
        let metrics :=
          if jobStateIs jobDoc "COMPLETED" then
            match profile with
            | some p =>
                setD (setD (setD (setD metrics
                  "memory_used" (optToVal (getD p "memoryUsed")))
                  "cpu_used" (optToVal (getD p "cpuUsed")))
                  "io_used" (optToVal (getD p "ioUsed")))
                  "records_processed" (optToVal (getD p "outputRecords"))
            | none => metrics
          else metrics
        some (metrics, pr.2)

/-! ### Pipeline orchestration (`main` in main.py, constants.py) -/

/-- Canonical step list `PIPELINE_STEPS` of `utils/constants.py`. -/
def PIPELINE_STEPS : List String :=
  ["data", "convert", "upload", "ddl", "cross", "benchmark", "report"]

/-- Outcomes of the seven step handlers of `main.py` for one pipeline run,
named after the handler functions.  Each handler is external to the loop
being verified (it shells out through `run_command`); its Boolean result is
the oracle consumed by the step loop. -/
structure StepHandlers where
  run_data_generation_step : Bool
  run_data_conversion_step : Bool
  run_hdfs_upload_step : Bool
  run_ddl_generation_step : Bool
  run_cross_cluster_setup_step : Bool
  run_benchmark_step : Bool
  run_report_generation_step : Bool

/-- The `if step == "data": ... elif step == "convert": ...` dispatch chain
of the step loop in `main`.  `none` models a step name matching no branch
(no handler invoked, loop continues). -/
def dispatchStep (H : StepHandlers) (s : String) : Option Bool :=
  if s = "data" then some H.run_data_generation_step
  else if s = "convert" then some H.run_data_conversion_step
  else if s = "upload" then some H.run_hdfs_upload_step
  else if s = "ddl" then some H.run_ddl_generation_step
  else if s = "cross" then some H.run_cross_cluster_setup_step
  else if s = "benchmark" then some H.run_benchmark_step
  else if s = "report" then some H.run_report_generation_step
  else none

/-- Step resolution of `main`: `if "all" in steps: steps = PIPELINE_STEPS.copy()`.
Otherwise the requested list is used as given. -/
def resolveSteps (steps : List String) : List String :=
  if "all" ∈ steps then PIPELINE_STEPS else steps

/-- The step loop of `main` (`for step in steps: ...`), returning the list of
steps whose handler was invoked, in invocation order (trace instrumentation),
together with the process exit code: on a failing handler the source calls
`sys.exit(1)` immediately; completing the loop reaches the end of `main`,
exit code 0. -/
def mainRun (H : StepHandlers) : List String → List String × Nat
  | [] => ([], 0)
  | s :: rest =>
      match dispatchStep H s with
      | none => mainRun H rest
      | some true =>
          let p := mainRun H rest
          (s :: p.1, p.2)
      | some false => ([s], 1)

/-! ### Per-table HDFS upload loops (upload_to_hdfs.py) -/

/-- The table list `TPC_DS_TABLES` of `hdfs-upload/upload_to_hdfs.py` (also
duplicated in `utils/constants.py`). -/
def TPC_DS_TABLES : List String :=
  ["call_center", "catalog_page", "catalog_returns", "catalog_sales",
   "customer", "customer_address", "customer_demographics", "date_dim",
   "household_demographics", "income_band", "inventory", "item",
   "promotion", "reason", "ship_mode", "store", "store_returns",
   "store_sales", "time_dim", "warehouse", "web_page", "web_returns",
   "web_sales", "web_site"]

/-- The per-table loop shared verbatim by `upload_to_simple_auth_hdfs` and
`upload_to_kerberized_hdfs`: for each table of the fixed list, if the local
path does not exist, log a warning and continue; otherwise upload, aborting
with failure if the upload fails.  `localExists t` models
`os.path.exists(local_path)` for the table, `uploadOk t` the result of
`hdfs_client.upload_directory`.  Returns the success flag and the list of
tables actually uploaded (trace instrumentation). -/
def uploadTables (localExists uploadOk : String → Bool) :
    List String → Bool × List String
  | [] => (true, [])
  | t :: rest =>
      if localExists t = false then uploadTables localExists uploadOk rest
      else if uploadOk t = false then (false, [t])
      else
        let p := uploadTables localExists uploadOk rest
        (p.1, t :: p.2)

/-- Model of `upload_to_simple_auth_hdfs` for one `(scale, format)` unit:
create the target directory (abort with failure if that fails), then run the
per-table loop over `TPC_DS_TABLES`.  Environment-variable bookkeeping and
client construction do not affect the result and are not modelled. -/
def upload_to_simple_auth_hdfs (mkdirOk : Bool)
    (localExists uploadOk : String → Bool) : Bool × List String :=
  if mkdirOk = false then (false, [])
  else uploadTables localExists uploadOk TPC_DS_TABLES

/-- Model of `upload_to_kerberized_hdfs` for one `(scale, format)` unit: if
no Kerberos ticket is present and none can be obtained, fail; otherwise
behave as the simple-auth upload (same mkdir-then-per-table-loop body).
`haveTicket` models the combined outcome of the ticket checks, and
`ticketObtained` the outcome of the acquisition attempts when no ticket was
found. -/
def upload_to_kerberized_hdfs (haveTicket ticketObtained : Bool)
    (mkdirOk : Bool) (localExists uploadOk : String → Bool) :
    Bool × List String :=
  if haveTicket = false ∧ ticketObtained = false then (false, [])
  else if mkdirOk = false then (false, [])
  else uploadTables localExists uploadOk TPC_DS_TABLES

/-! ### Configuration resolver (utils/config.py) -/

/-- The process environment as seen by `os.environ`: `env v = some s` models
the variable `v` being present with value `s`. -/
abbrev EnvMap := String → Option String

/-- Python `str.upper()` (ASCII; the configuration keys and environment
variable names involved are all ASCII). -/
def pyUpper (s : String) : String := String.mk (s.data.map Char.toUpper)

/-- Python `str.lower()` (ASCII). -/
def pyLower (s : String) : String := String.mk (s.data.map Char.toLower)

/-- Python whitespace test of `str.strip()` (the ASCII whitespace set;
further Unicode whitespace is not modelled). -/
def isPySpace (c : Char) : Bool :=
  c = ' ' ∨ c = '\t' ∨ c = '\n' ∨ c = '\r' ∨ c = '\x0b' ∨ c = '\x0c'

/-- Python `str.strip()`. -/
def pyStrip (s : String) : String :=
  String.mk (((s.data.dropWhile isPySpace).reverse.dropWhile isPySpace).reverse)

/-- Helper of `pySplitOnChar`: accumulate the current piece (reversed). -/
def splitOnCharAux (c : Char) : List Char → List Char → List (List Char)
  | [], acc => [acc.reverse]
  | x :: xs, acc =>
      if x = c then acc.reverse :: splitOnCharAux c xs []
      else splitOnCharAux c xs (x :: acc)

/-- Python `s.split(sep)` for a one-character separator: adjacent
separators produce empty pieces, and the empty string yields `[""]`. -/
def pySplitOnChar (c : Char) (s : String) : List String :=
  (splitOnCharAux c s.data []).map String.mk

/-- Python `sep in s` for a one-character separator. -/
def pyContainsChar (c : Char) (s : String) : Bool := s.data.contains c

/-- Digits-only parse used by the model of Python `int(str)`. -/
def digitsToNat (cs : List Char) : Option Nat :=
  if cs ≠ [] ∧ cs.all Char.isDigit then
    some (cs.foldl (fun a c => a * 10 + (c.toNat - 48)) 0)
  else none

/-- Model of Python `int(s)` on a string: surrounding whitespace is stripped,
an optional sign is followed by at least one decimal digit; anything else
raises `ValueError`, modelled as `none`.  (CPython also accepts underscore
digit grouping and non-ASCII digits; those inputs are not modelled — every
override claim below only depends on this parse being a function of the
string.) -/
def parsePyInt (s : String) : Option Int :=
  match (pyStrip s).data with
  | [] => none
  | c :: cs =>
      if c = '-' then (digitsToNat cs).map (fun n => -(n : Int))
      else if c = '+' then (digitsToNat cs).map (fun n => (n : Int))
      else (digitsToNat (c :: cs)).map (fun n => (n : Int))

/-- Model of Python `[int(x) for x in s.split(",")]`: `none` when any piece
fails to parse (the comprehension raises `ValueError`). -/
def parsePyIntList (s : String) : Option (List Int) :=
  (pySplitOnChar ',' s).mapM parsePyInt

/-- One conditional override: `if VAR in os.environ: d[key] = value(VAR)`.
The update `w` is `none` when the variable is absent (or its value fails to
parse, for the `try/except ValueError` guarded fields — those log a warning
and assign nothing). -/
def applyField (k : String) (w : Option CVal) (d : CDict) : CDict :=
  match w with
  | some v => setD d k v
  | none => d

/-- A block of conditional overrides applied in source order. -/
def applyFields (ups : List (String × Option CVal)) (d : CDict) : CDict :=
  ups.foldl (fun d kv => applyField kv.1 kv.2 d) d

/-- Field overrides of `_override_cluster_config` for one cluster name
(`dremio_a` or `dremio_b`): host, port (int-parsed, `ValueError` skipped),
username, password, ssl (`value.lower() in ["true", "yes", "1"]`). -/
def clusterFieldUpdates (env : EnvMap) (cluster : String) :
    List (String × Option CVal) :=
  [("host", (env ("DREMIO_" ++ pyUpper cluster ++ "_HOST")).map CVal.str),
   ("port", (env ("DREMIO_" ++ pyUpper cluster ++ "_PORT")).bind
      (fun s => (parsePyInt s).map CVal.int)),
   ("username", (env ("DREMIO_" ++ pyUpper cluster ++ "_USERNAME")).map CVal.str),
   ("password", (env ("DREMIO_" ++ pyUpper cluster ++ "_PASSWORD")).map CVal.str),
   ("ssl", (env ("DREMIO_" ++ pyUpper cluster ++ "_SSL")).map
      (fun s => CVal.bool (["true", "yes", "1"].contains (pyLower s))))]

/-- Field overrides of `_override_hdfs_config` for the `kerberized`
subsection. -/
def kerberizedFieldUpdates (env : EnvMap) : List (String × Option CVal) :=
  [("principal", (env "DREMIO_KERBERIZED_PRINCIPAL").map CVal.str),
   ("keytab", (env "DREMIO_KERBERIZED_KEYTAB").map CVal.str),
   ("hadoop_bin", (env "DREMIO_KERBERIZED_HADOOP_BIN").map CVal.str),
   ("hadoop_conf", (env "DREMIO_KERBERIZED_HADOOP_CONF").map CVal.str)]

/-- Field overrides of `_override_hdfs_config` for the `simple_auth`
subsection. -/
def simpleAuthFieldUpdates (env : EnvMap) : List (String × Option CVal) :=
  [("user", (env "DREMIO_SIMPLE_AUTH_USER").map CVal.str),
   ("hadoop_bin", (env "DREMIO_SIMPLE_AUTH_HADOOP_BIN").map CVal.str),
   ("hadoop_conf", (env "DREMIO_SIMPLE_AUTH_HADOOP_CONF").map CVal.str)]

/-- Field overrides of `_override_pipeline_config`. -/
def pipelineFieldUpdates (env : EnvMap) : List (String × Option CVal) :=
  [("hdfs_target_dir", (env "DREMIO_HDFS_TARGET_DIR").map CVal.str),
   ("query_dir", (env "DREMIO_QUERY_DIR").map CVal.str),
   ("timeout_seconds", (env "DREMIO_QUERY_TIMEOUT_SECONDS").bind
      (fun s => (parsePyInt s).map CVal.int)),
   ("num_iterations", (env "DREMIO_BENCHMARK_ITERATIONS").bind
      (fun s => (parsePyInt s).map CVal.int)),
   ("scale_factors", (env "DREMIO_SCALE_FACTORS").bind
      (fun s => (parsePyIntList s).map (fun ns => CVal.list (ns.map CVal.int)))),
   ("formats", (env "DREMIO_FORMATS").map
      (fun s => CVal.list ((pySplitOnChar ',' s).map
        (fun f => CVal.str (pyStrip f)))))]

/-- Field overrides of `_override_data_generation_config`. -/
def dataGenFieldUpdates (env : EnvMap) : List (String × Option CVal) :=
  [("dsdgen_path", (env "DREMIO_DSDGEN_PATH").map CVal.str)]

/-- Shared shape of the override blocks working under a named key of a
dictionary (`pipeline`, `data_generation`, and each cluster / HDFS
subsection): ensure the key is present (inserting `{}` if absent), then
apply the conditional field assignments to its value.  If the value is not a
dictionary, the first actual assignment raises `TypeError`/`AttributeError`
in Python (modelled as `none`); when no assignment fires, the non-dictionary
value is left untouched and nothing raises. -/
def overrideEntry (ups : List (String × Option CVal)) (name : String)
    (d : CDict) : Option CDict :=
  let d₀ := match getD d name with
    | none => setD d name (.dict [])
    | some _ => d
  match getD d₀ name with
  | some (.dict cc) => some (setD d₀ name (.dict (applyFields ups cc)))
  | some _ => if ups.any (fun kv => kv.2.isSome) then none else some d₀
  | none => none

/-- Fixed-point condition of `overrideEntry` at a key, used by the
idempotence proof: the key holds a dictionary already saturated under the
field overrides, or holds a non-dictionary value while no override fires.
The condition only depends on the value found at `name`. -/
def entryFixedCond (ups : List (String × Option CVal)) (name : String)
    (d : CDict) : Prop :=
  (∃ cc, getD d name = some (.dict cc) ∧ applyFields ups cc = cc) ∨
  (∃ v, getD d name = some v ∧ (∀ cc, v ≠ .dict cc) ∧
    ups.any (fun kv => kv.2.isSome) = false)

/-- Model of `_override_cluster_config`: ensure `clusters` is present, then
override the `dremio_a` and `dremio_b` entries in order.  A non-dictionary
`clusters` value always raises in Python (the membership test, indexing, or
insertion on it fails regardless of the environment), modelled as `none`. -/
def overrideClusterConfig (env : EnvMap) (c : CDict) : Option CDict :=
  let c₀ := match getD c "clusters" with
    | none => setD c "clusters" (.dict [])
    | some _ => c
  match getD c₀ "clusters" with
  | some (.dict cl) =>
      match overrideEntry (clusterFieldUpdates env "dremio_a") "dremio_a" cl with
      | none => none
      | some cl₁ =>
          match overrideEntry (clusterFieldUpdates env "dremio_b") "dremio_b" cl₁ with
          | none => none
          | some cl₂ => some (setD c₀ "clusters" (.dict cl₂))
  | some _ => none
  | none => none

/-- Model of `_override_hdfs_config`: ensure `hdfs` is present, then
override the `kerberized` and `simple_auth` subsections in order (source
order).  A non-dictionary `hdfs` value always raises, as for `clusters`. -/
def overrideHdfsConfig (env : EnvMap) (c : CDict) : Option CDict :=
  let c₀ := match getD c "hdfs" with
    | none => setD c "hdfs" (.dict [])
    | some _ => c
  match getD c₀ "hdfs" with
  | some (.dict hd) =>
      match overrideEntry (kerberizedFieldUpdates env) "kerberized" hd with
      | none => none
      | some hd₁ =>
          match overrideEntry (simpleAuthFieldUpdates env) "simple_auth" hd₁ with
          | none => none
          | some hd₂ => some (setD c₀ "hdfs" (.dict hd₂))
  | some _ => none
  | none => none

/-- Model of `_override_pipeline_config` (the fields live directly in the
`pipeline` section, same ensure-then-assign shape as a subsection). -/
def overridePipelineConfig (env : EnvMap) (c : CDict) : Option CDict :=
  overrideEntry (pipelineFieldUpdates env) "pipeline" c

/-- Model of `_override_data_generation_config`. -/
def overrideDataGenConfig (env : EnvMap) (c : CDict) : Option CDict :=
  overrideEntry (dataGenFieldUpdates env) "data_generation" c

/-- Model of `Config._apply_environment_overrides`: the four override blocks
in source order.  Result `none` models a raised exception (caught by
`load_from_file`, leaving the configuration object in a failed load). -/
def applyEnvironmentOverrides (env : EnvMap) (c : CDict) : Option CDict :=
  match overrideClusterConfig env c with
  | none => none
  | some c₁ =>
      match overrideHdfsConfig env c₁ with
      | none => none
      | some c₂ =>
          match overridePipelineConfig env c₂ with
          | none => none
          | some c₃ => overrideDataGenConfig env c₃

/-- A concrete environment for exercising the overrides: one cluster host
override and one scale-factor list override. -/
def envC7 : EnvMap := fun v =>
  if v = "DREMIO_DREMIO_A_HOST" then some "dremio-a.example"
  else if v = "DREMIO_SCALE_FACTORS" then some "1,10"
  else none

/-! ### Configuration accessors and validation (utils/config.py) -/

/-- Python truthiness (`not x`) on document values. -/
def pyTruthy (v : CVal) : Bool :=
  match v with
  | .str s => s ≠ ""
  | .int n => n ≠ 0
  | .bool b => b
  | .list l => ¬ l.isEmpty
  | .dict d => ¬ d.isEmpty

/-- Python truthiness of a `dict.get` result (`None` is falsy). -/
def pyTruthyOpt (o : Option CVal) : Bool :=
  match o with
  | none => false
  | some v => pyTruthy v

/-- Model of `x.get(name, {})` followed by use of the result as a
dictionary: a missing key yields the `{}` default, a dictionary value is
used as is, and any other value raises `AttributeError` at the next `.get`
call on it (modelled as `none`). -/
def getSectionDict (c : CDict) (k : String) : Option CDict :=
  match getD c k with
  | none => some []
  | some (.dict d) => some d
  | some _ => none

/-- Dotted traversal of `Config.get` (`value[k]` for each segment, `default`
when a segment is absent or the current value is not a mapping). -/
def getPath (v : CVal) (ks : List String) : Option CVal :=
  match ks with
  | [] => some v
  | k :: t =>
      match v with
      | .dict d =>
          match getD d k with
          | some w => getPath w t
          | none => none
      | _ => none

/-- Model of `Config.get(key)` with the default `None`: dotted keys traverse
nested dictionaries, plain keys use a direct lookup. -/
def cfgGet (c : CDict) (key : String) : Option CVal :=
  if pyContainsChar '.' key then getPath (.dict c) (pySplitOnChar '.' key)
  else getD c key

/-- Model of `Config.validate(step)`: `none` models a raised exception
(a traversed section that is not a mapping), otherwise the
`(is_valid, error_messages)` pair.  An empty configuration short-circuits
with the single error `Configuration is empty`. -/
def validate (c : CDict) (step : String) : Option (Bool × List String) :=
  if c.isEmpty then some (false, ["Configuration is empty"])
  else if step = "data" then
    match getSectionDict c "data_generation" with
    | none => none
    | some dg =>
        let errors :=
          if pyTruthyOpt (getD dg "dsdgen_path") then []
          else ["data_generation.dsdgen_path is required for data generation step"]
        some (errors.isEmpty, errors)
  else if step = "upload" then
    match getSectionDict c "hdfs" with
    | none => none
    | some hd =>
        match getSectionDict hd "simple_auth", getSectionDict hd "kerberized" with
        | some sa, some ker =>
            let e₁ :=
              if pyTruthyOpt (getD sa "hadoop_conf") then []
              else ["hdfs.simple_auth.hadoop_conf is required for upload step"]
            let e₂ :=
              if pyTruthyOpt (getD ker "hadoop_conf") then []
              else ["hdfs.kerberized.hadoop_conf is required for upload step"]
            let e₃ :=
              if pyTruthyOpt (getD ker "keytab") then []
              else ["hdfs.kerberized.keytab is required for upload step"]
            let e₄ :=
              if pyTruthyOpt (getD ker "principal") then []
              else ["hdfs.kerberized.principal is required for upload step"]
            let errors := e₁ ++ e₂ ++ e₃ ++ e₄
            some (errors.isEmpty, errors)
        | _, _ => none
  else if step = "ddl" ∨ step = "cross" ∨ step = "benchmark" then
    match getSectionDict c "clusters" with
    | none => none
    | some cl =>
        match getSectionDict cl "dremio_a", getSectionDict cl "dremio_b" with
        | some da, some db =>
            let e₁ :=
              if pyTruthyOpt (getD da "host") then []
              else ["clusters.dremio_a.host is required"]
            let e₂ :=
              if pyTruthyOpt (getD db "host") then []
              else ["clusters.dremio_b.host is required"]
            if step = "benchmark" then
              match getSectionDict c "pipeline" with
              | none => none
              | some pd =>
                  let e₃ :=
                    if pyTruthyOpt (getD pd "query_dir") then []
                    else ["pipeline.query_dir is required for benchmark step"]
                  let errors := e₁ ++ e₂ ++ e₃
                  some (errors.isEmpty, errors)
            else
              let errors := e₁ ++ e₂
              some (errors.isEmpty, errors)
        | _, _ => none
  else some (true, [])

/-- Spec-side required-key table (refinement reference, stated from the
spec's words, to be compared with `validate` which is translated from the
source): for each step, the dotted required keys with the exact error
message the spec quotes for them. -/
def specRequiredKeys (step : String) : List (String × String) :=
  if step = "data" then
    [("data_generation.dsdgen_path",
      "data_generation.dsdgen_path is required for data generation step")]
  else if step = "upload" then
    [("hdfs.simple_auth.hadoop_conf",
      "hdfs.simple_auth.hadoop_conf is required for upload step"),
     ("hdfs.kerberized.hadoop_conf",
      "hdfs.kerberized.hadoop_conf is required for upload step"),
     ("hdfs.kerberized.keytab",
      "hdfs.kerberized.keytab is required for upload step"),
     ("hdfs.kerberized.principal",
      "hdfs.kerberized.principal is required for upload step")]
  else if step = "ddl" ∨ step = "cross" then
    [("clusters.dremio_a.host", "clusters.dremio_a.host is required"),
     ("clusters.dremio_b.host", "clusters.dremio_b.host is required")]
  else if step = "benchmark" then
    [("clusters.dremio_a.host", "clusters.dremio_a.host is required"),
     ("clusters.dremio_b.host", "clusters.dremio_b.host is required"),
     ("pipeline.query_dir", "pipeline.query_dir is required for benchmark step")]
  else []

/-- A concrete configuration for the upload step that is missing exactly
`hdfs.kerberized.principal`. -/
def uploadCfgMissingPrincipal : CDict :=
  [("hdfs", .dict
      [("simple_auth", .dict [("hadoop_conf", .str "/etc/hadoop/conf")]),
       ("kerberized", .dict
          [("hadoop_conf", .str "/etc/hadoop/conf-kerb"),
           ("keytab", .str "/etc/security/dremio.keytab")])])]

/-! ### Command runner (utils/command.py) -/

/-- Strict UTF-8 decoding of a byte list, the semantics of Python
`bytes.decode("utf-8")`: `none` models a raised `UnicodeDecodeError`
(invalid lead or continuation byte, truncated, overlong, surrogate or
out-of-range sequence). -/
def utf8DecodeChars (bs : List Nat) : Option (List Char) :=
  match bs with
  | [] => some []
  | b :: rest =>
      if b < 0x80 then
        (utf8DecodeChars rest).map (fun cs => Char.ofNat b :: cs)
      else if b < 0xC2 then none
      else if b < 0xE0 then
        match rest with
        | c₁ :: rest₂ =>
            if 0x80 ≤ c₁ ∧ c₁ < 0xC0 then
              (utf8DecodeChars rest₂).map
                (fun cs => Char.ofNat ((b - 0xC0) * 64 + (c₁ - 0x80)) :: cs)
            else none
        | [] => none
      else if b < 0xF0 then
        match rest with
        | c₁ :: c₂ :: rest₂ =>
            if (0x80 ≤ c₁ ∧ c₁ < 0xC0) ∧ (0x80 ≤ c₂ ∧ c₂ < 0xC0) then
              let cp := (b - 0xE0) * 4096 + (c₁ - 0x80) * 64 + (c₂ - 0x80)
              if 0x800 ≤ cp ∧ ¬ (0xD800 ≤ cp ∧ cp ≤ 0xDFFF) then
                (utf8DecodeChars rest₂).map (fun cs => Char.ofNat cp :: cs)
              else none
            else none
        | _ => none
      else if b < 0xF5 then
        match rest with
        | c₁ :: c₂ :: c₃ :: rest₂ =>
            if (0x80 ≤ c₁ ∧ c₁ < 0xC0) ∧ (0x80 ≤ c₂ ∧ c₂ < 0xC0) ∧
               (0x80 ≤ c₃ ∧ c₃ < 0xC0) then
              let cp := (b - 0xF0) * 262144 + (c₁ - 0x80) * 4096 +
                (c₂ - 0x80) * 64 + (c₃ - 0x80)
              if 0x10000 ≤ cp ∧ cp ≤ 0x10FFFF then
                (utf8DecodeChars rest₂).map (fun cs => Char.ofNat cp :: cs)
              else none
            else none
        | _ => none
      else none

/-- Python `bytes.decode("utf-8")` as a string. -/
def utf8Decode (bs : List Nat) : Option String :=
  (utf8DecodeChars bs).map List.asString

/-- Outcome of the `subprocess.run(cmd, check=True, ...)` call in
`run_shell_command`: either the process completed (with its exit code and
captured stdout/stderr bytes — empty when output is not captured), or the
call itself raised something other than `CalledProcessError` (for example
`FileNotFoundError`), with the exception text. -/
inductive SubprocessOutcome where
  | completed (returncode : Nat) (stdout stderr : List Nat)
  | exn (msg : String)

/-- Model of `CommandExecutor.run_shell_command(cmd, description,
capture_output)`.  The result is `.ok (success, stdout, stderr)` when the
Python function returns, and `.error` when it raises to its caller.

With `check=True` a non-zero exit raises `CalledProcessError`, handled by
the first `except` clause; inside that handler the source decodes
`e.stdout` / `e.stderr` with `bytes.decode("utf-8")` — these calls are
outside the `try` body, so a `UnicodeDecodeError` raised there propagates
to the caller (an `except` clause of a `try` statement does not catch
exceptions raised inside a sibling handler).  On a zero exit the decoding
happens inside the `try` body, so the same failure is caught by the generic
`except Exception` clause and converted to `(False, None, str(e))`. -/
def run_shell_command (outcome : SubprocessOutcome) (captureOutput : Bool) :
    Except String (Bool × Option String × Option String) :=
  match outcome with
  | .exn msg => .ok (false, none, some msg)
  | .completed rc out err =>
      if rc = 0 then
        if captureOutput then
          match utf8Decode out with
          | none => .ok (false, none, some "UnicodeDecodeError")
          | some o =>
              match utf8Decode err with
              | none => .ok (false, none, some "UnicodeDecodeError")
              | some e => .ok (true, some o, some e)
        else .ok (true, none, none)
      else
        if captureOutput then
          match utf8Decode out, utf8Decode err with
          | some o, some e => .ok (false, some o, some e)
          | _, _ => .error "UnicodeDecodeError"
        else .ok (false, none, none)

/-- Outcome of the wrapped callable in `run_python_operation`: a returned
value rendered by `str` (`none` for a Python `None` result), or a raised
exception with its text. -/
inductive PyOpOutcome where
  | ok (result : Option String)
  | exn (msg : String)

/-- Model of `CommandExecutor.run_python_operation`: the whole body sits in
one `try` with a generic handler, so every outcome is delivered through the
tuple — the function is total (it never raises). -/
def run_python_operation (o : PyOpOutcome) :
    Bool × Option String × Option String :=
  match o with
  | .ok (some r) => (true, some r, some "")
  | .ok none => (true, some "", some "")
  | .exn msg => (false, none, some msg)

/-! ### Report generation (reports/generate_report.py), with the pandas
Series/DataFrame alignment semantics the source code executes under -/

/-- Row/index label of a pandas object: the default integer `RangeIndex`
labels or string labels (query names). -/
inductive PdLabel where
  | num (n : Nat)
  | str (s : String)
  deriving DecidableEq

/-- Scalar stored in a pandas cell. -/
inductive PdScalar where
  | num (q : ℚ)
  | str (s : String)
  deriving DecidableEq

/-- One pandas cell; `none` is `NaN` (also standing for the non-finite
`inf` results of division by zero — all are "not a finite number" for the
claims below, and none of them is a raised error). -/
abbrev PdCell := Option PdScalar

/-- A pandas Series: labelled cells in order. -/
abbrev PdSeries := List (PdLabel × PdCell)

/-- A pandas DataFrame: an index and named columns, each column holding one
cell per index position. -/
structure PdFrame where
  index : List PdLabel
  cols : List (String × List PdCell)

/-- Lookup of a series value by label (missing label ↦ `NaN`). -/
def seriesGet (s : PdSeries) (l : PdLabel) : PdCell :=
  match s with
  | [] => none
  | (l₀, v₀) :: t => if l₀ = l then v₀ else seriesGet t l

/-- Column values of a frame. -/
def frameColVals (f : PdFrame) (name : String) : List PdCell :=
  match f.cols.find? (fun kv => kv.1 = name) with
  | some kv => kv.2
  | none => []

/-- Column of a frame as a Series over the frame's index
(`df[name]`). -/
def frameColSeries (f : PdFrame) (name : String) : PdSeries :=
  f.index.zip (frameColVals f name)

/-- Replace or append a named column's values. -/
def frameSetVals (f : PdFrame) (name : String) (vals : List PdCell) :
    PdFrame :=
  if (f.cols.find? (fun kv => kv.1 = name)).isSome then
    ⟨f.index, f.cols.map (fun kv => if kv.1 = name then (name, vals) else kv)⟩
  else ⟨f.index, f.cols ++ [(name, vals)]⟩

/-- Assignment `df[name] = array_like` (a plain array, e.g. an `Index`
object): on an empty frame the index becomes the default `RangeIndex` of
the array's length; values are taken positionally. -/
def frameSetColArray (f : PdFrame) (name : String) (vals : List PdCell) :
    PdFrame :=
  if f.index.isEmpty ∧ f.cols.isEmpty then
    ⟨(List.range vals.length).map PdLabel.num, [(name, vals)]⟩
  else frameSetVals f name vals

/-- Assignment `df[name] = series`: on an empty frame the frame adopts the
series' index; otherwise the series is aligned to the frame's existing
index — each row receives the series value at that row's label, `NaN` where
the label is absent from the series. -/
def frameSetColSeries (f : PdFrame) (name : String) (s : PdSeries) :
    PdFrame :=
  if f.index.isEmpty ∧ f.cols.isEmpty then
    ⟨s.map Prod.fst, [(name, s.map Prod.snd)]⟩
  else frameSetVals f name (f.index.map (fun l => seriesGet s l))

/-- Elementwise subtraction on cells: `NaN` absorbs; non-numeric operands
do not occur in the flows modelled here and are rendered `NaN`. -/
def cellSub (a b : PdCell) : PdCell :=
  match a, b with
  | some (.num x), some (.num y) => some (.num (x - y))
  | _, _ => none

/-- Elementwise division on cells: pandas float division never raises;
division by zero yields a non-finite value (`inf`/`NaN`), modelled as
`NaN`. -/
def cellDiv (a b : PdCell) : PdCell :=
  match a, b with
  | some (.num x), some (.num y) => if y = 0 then none else some (.num (x / y))
  | _, _ => none

/-- Multiplication of a cell by a rational constant (`series * 100`). -/
def cellScale (k : ℚ) (a : PdCell) : PdCell :=
  match a with
  | some (.num x) => some (.num (k * x))
  | _ => none

/-- Label union for series alignment: the left labels followed by the
right-only labels.  (pandas orders the union differently for disjoint
indexes, but every binary-operation result below is immediately re-aligned
by a frame assignment, so the order is irrelevant to the final frame.) -/
def labelUnion (a b : List PdLabel) : List PdLabel :=
  a ++ b.filter (fun l => ¬ a.contains l)

/-- Aligned elementwise binary operation of two series. -/
def seriesBinop (op : PdCell → PdCell → PdCell) (a b : PdSeries) : PdSeries :=
  (labelUnion (a.map Prod.fst) (b.map Prod.fst)).map
    (fun l => (l, op (seriesGet a l) (seriesGet b l)))

/-- Scaling of a series by a rational constant. -/
def seriesScale (k : ℚ) (s : PdSeries) : PdSeries :=
  s.map (fun lv => (lv.1, cellScale k lv.2))

/-- Python `df.set_index(name)`: the named column's values become the
index, and the column is removed. -/
def frameSetIndex (f : PdFrame) (name : String) : PdFrame :=
  let newIndex := (frameColVals f name).map
    (fun c => match c with
      | some (.str s) => PdLabel.str s
      | some (.num q) => PdLabel.str (toString q)
      | none => PdLabel.str "nan")
  ⟨newIndex, f.cols.filter (fun kv => ¬ kv.1 = name)⟩

/-- Value of a frame cell by column name and index label. -/
def frameLookup (f : PdFrame) (name : String) (l : PdLabel) : PdCell :=
  seriesGet (frameColSeries f name) l

/-- One row of a benchmark results file as consumed by
`generate_summary_statistics` (the columns the aggregation reads).
Execution times and resource figures are modelled as rationals: the
aggregate identities proved below hold exactly in IEEE arithmetic as well,
since they only involve values compared with themselves. -/
structure BenchRecord where
  query_name : String
  execution_time : ℚ
  memory_used : ℚ
  cpu_used : ℚ
  io_used : ℚ
  status : String

/-- Insertion of a string into a sorted list (ascending). -/
def insertSorted (s : String) (l : List String) : List String :=
  match l with
  | [] => [s]
  | x :: t => if s ≤ x then s :: x :: t else x :: insertSorted s t

/-- Ascending sort of strings (pandas `groupby` sorts group keys). -/
def sortStrings (l : List String) : List String := l.foldr insertSorted []

/-- Mean of a rational-valued field over a group. -/
def groupMean (f : BenchRecord → ℚ) (g : List BenchRecord) : ℚ :=
  (g.map f).sum / (g.length : ℚ)

/-- Maximum of a rational-valued field over a group (groups built by
`groupby` are non-empty; the empty case is unreachable). -/
def groupMax (f : BenchRecord → ℚ) (g : List BenchRecord) : ℚ :=
  match g.map f with
  | [] => 0
  | x :: t => t.foldl max x

/-- Minimum of a rational-valued field over a group. -/
def groupMin (f : BenchRecord → ℚ) (g : List BenchRecord) : ℚ :=
  match g.map f with
  | [] => 0
  | x :: t => t.foldl min x

/-- Success rate of a group: `(status == "COMPLETED").mean() * 100`. -/
def groupSuccessRate (g : List BenchRecord) : ℚ :=
  (((g.filter (fun r => r.status = "COMPLETED")).length : ℚ) /
    (g.length : ℚ)) * 100

/-- Model of `generate_summary_statistics(df)`: group the records by
`query_name` (pandas sorts the group keys), aggregate, and name the columns
as after the source's rename.  The `std_execution_time` column needs a real
square root and is read by nothing modelled here; it is omitted. -/
def generate_summary_statistics (rs : List BenchRecord) : PdFrame :=
  let keys := sortStrings (rs.map (fun r => r.query_name)).dedup
  let grp := fun k => rs.filter (fun r => r.query_name = k)
  ⟨keys.map PdLabel.str,
   [("avg_execution_time",
      keys.map (fun k => some (.num (groupMean (fun r => r.execution_time) (grp k))))),
    ("min_execution_time",
      keys.map (fun k => some (.num (groupMin (fun r => r.execution_time) (grp k))))),
    ("max_execution_time",
      keys.map (fun k => some (.num (groupMax (fun r => r.execution_time) (grp k))))),
    ("run_count",
      keys.map (fun k => some (.num ((grp k).length : ℚ)))),
    ("avg_memory_used",
      keys.map (fun k => some (.num (groupMean (fun r => r.memory_used) (grp k))))),
    ("max_memory_used",
      keys.map (fun k => some (.num (groupMax (fun r => r.memory_used) (grp k))))),
    ("avg_cpu_used",
      keys.map (fun k => some (.num (groupMean (fun r => r.cpu_used) (grp k))))),
    ("max_cpu_used",
      keys.map (fun k => some (.num (groupMax (fun r => r.cpu_used) (grp k))))),
    ("avg_io_used",
      keys.map (fun k => some (.num (groupMean (fun r => r.io_used) (grp k))))),
    ("max_io_used",
      keys.map (fun k => some (.num (groupMax (fun r => r.io_used) (grp k))))),
    ("success_rate",
      keys.map (fun k => some (.num (groupSuccessRate (grp k)))))]⟩

/-- A single benchmark record with non-zero execution time, used to
evaluate the comparison round trip at a concrete input. -/
def benchRecordQ1 : BenchRecord :=
  ⟨"q1", 2, 1, 1, 1, "COMPLETED"⟩

/-- Model of `generate_comparison_report(df_a, df_b, report_name)`: compute
both summaries, then build the comparison frame by the source's sequence of
column assignments, under pandas assignment/alignment semantics
(`frameSetColArray` for the `Index` object, `frameSetColSeries` for Series
values), and finally `set_index("query_name")`. -/
def generate_comparison_report (ra rb : List BenchRecord) : PdFrame :=
  let sa := generate_summary_statistics ra
  let sb := generate_summary_statistics rb
  let cmp : PdFrame := ⟨[], []⟩
  let cmp := frameSetColArray cmp "query_name"
    (sa.index.map (fun l => match l with
      | PdLabel.str s => some (.str s)
      | PdLabel.num n => some (.num (n : ℚ))))
  let cmp := frameSetColSeries cmp "a_avg_time" (frameColSeries sa "avg_execution_time")
  let cmp := frameSetColSeries cmp "b_avg_time" (frameColSeries sb "avg_execution_time")
  let cmp := frameSetColSeries cmp "time_diff"
    (seriesBinop cellSub (frameColSeries sb "avg_execution_time")
      (frameColSeries sa "avg_execution_time"))
  let cmp := frameSetColSeries cmp "time_diff_pct"
    (seriesScale 100 (seriesBinop cellDiv (frameColSeries cmp "time_diff")
      (frameColSeries sa "avg_execution_time")))
  let cmp := frameSetColSeries cmp "a_avg_memory" (frameColSeries sa "avg_memory_used")
  let cmp := frameSetColSeries cmp "b_avg_memory" (frameColSeries sb "avg_memory_used")
  let cmp := frameSetColSeries cmp "memory_diff_pct"
    (seriesScale 100 (seriesBinop cellDiv
      (seriesBinop cellSub (frameColSeries sb "avg_memory_used")
        (frameColSeries sa "avg_memory_used"))
      (frameColSeries sa "avg_memory_used")))
  let cmp := frameSetColSeries cmp "a_success_rate" (frameColSeries sa "success_rate")
  let cmp := frameSetColSeries cmp "b_success_rate" (frameColSeries sb "success_rate")
  frameSetIndex cmp "query_name"

end DremioBench

namespace DremioBench

/-! ### Lemmas about dictionary operations -/

theorem getD_setD_self (d : CDict) (k : String) (v : CVal) :
    getD (setD d k v) k = some v := by
  induction d with
  | nil => simp [setD, getD]
  | cons h t ih =>
      obtain ⟨k₀, v₀⟩ := h
      by_cases hk : k₀ = k <;> simp [setD, getD, hk, ih]

theorem getD_setD_ne (d : CDict) (k k' : String) (v : CVal) (h : k' ≠ k) :
    getD (setD d k v) k' = getD d k' := by
  induction d with
  | nil => simp [setD, getD, Ne.symm h]
  | cons hd t ih =>
      obtain ⟨k₀, v₀⟩ := hd
      by_cases hk : k₀ = k
      · subst hk
        simp [setD, getD, Ne.symm h]
      · simp [setD, getD, hk, ih]

theorem setD_of_getD (d : CDict) (k : String) (v : CVal) (h : getD d k = some v) :
    setD d k v = d := by
  induction d with
  | nil => simp [getD] at h
  | cons hd t ih =>
      obtain ⟨k₀, v₀⟩ := hd
      by_cases hk : k₀ = k
      · subst hk
        simp [getD] at h
        simp [setD, h]
      · simp [getD, hk] at h
        simp [setD, hk, ih h]

/-! ### Unfolding and trace lemmas for the polling loop -/

theorem pollLoop_exn (resp : Nat → PollResp) (timeout interval : Nat)
    (hpos : 0 < interval) (n : Nat) (msg : String) (h : resp n = .exn msg) :
    pollLoop resp timeout interval hpos n = (errorDoc msg, n + 1) := by
  rw [pollLoop, h]

theorem pollLoop_terminal (resp : Nat → PollResp) (timeout interval : Nat)
    (hpos : 0 < interval) (n : Nat) (doc : CDict) (h : resp n = .ok doc)
    (ht : isTerminalDoc doc = true) :
    pollLoop resp timeout interval hpos n = (doc, n + 1) := by
  rw [pollLoop, h]
  simp [ht]

theorem pollLoop_timeout (resp : Nat → PollResp) (timeout interval : Nat)
    (hpos : 0 < interval) (n : Nat) (doc : CDict) (h : resp n = .ok doc)
    (ht : isTerminalDoc doc = false) (htime : n * interval > timeout) :
    pollLoop resp timeout interval hpos n = (timeoutDoc, n + 1) := by
  rw [pollLoop, h]
  simp [ht, htime]

theorem pollLoop_step (resp : Nat → PollResp) (timeout interval : Nat)
    (hpos : 0 < interval) (n : Nat) (doc : CDict) (h : resp n = .ok doc)
    (ht : isTerminalDoc doc = false) (htime : ¬ n * interval > timeout) :
    pollLoop resp timeout interval hpos n =
      pollLoop resp timeout interval hpos (n + 1) := by
  rw [pollLoop, h]
  simp [ht, htime]

/-- Trace lemma: if every status request from iteration `n` up to (excluding)
`N` yields a non-terminal document within the deadline, and iteration `N`
yields a terminal document, the loop returns that document after exactly
`N + 1` requests — one request per iteration, no early exit, no extra
request. -/
theorem pollLoop_reaches_terminal (resp : Nat → PollResp)
    (timeout interval : Nat) (hpos : 0 < interval) (n N : Nat) (dN : CDict)
    (hok : ∀ m, n ≤ m → m < N → ∃ d, resp m = .ok d ∧ isTerminalDoc d = false)
    (hdead : ∀ m, n ≤ m → m < N → m * interval ≤ timeout)
    (hN : resp N = .ok dN) (hterm : isTerminalDoc dN = true) (hn : n ≤ N) :
    pollLoop resp timeout interval hpos n = (dN, N + 1) := by
  obtain ⟨k, hk⟩ : ∃ k, N - n = k := ⟨N - n, rfl⟩
  induction k generalizing n with
  | zero =>
      have hnN : n = N := by omega
      subst hnN
      exact pollLoop_terminal resp timeout interval hpos n dN hN hterm
  | succ k ih =>
      have hlt : n < N := by omega
      obtain ⟨d, hd, hdt⟩ := hok n le_rfl hlt
      have hstep := pollLoop_step resp timeout interval hpos n d hd hdt
        (by simpa using hdead n le_rfl hlt)
      rw [hstep]
      exact ih (n + 1) (fun m h1 h2 => hok m (by omega) h2)
        (fun m h1 h2 => hdead m (by omega) h2) (by omega) (by omega)

/-- Trace lemma: if every status request from `n` up to and including `N`
yields a non-terminal document, requests before `N` are within the deadline,
and the request at `N` is past the deadline, the loop returns the synthetic
TIMEOUT document after `N + 1` requests. -/
theorem pollLoop_times_out (resp : Nat → PollResp)
    (timeout interval : Nat) (hpos : 0 < interval) (n N : Nat)
    (hok : ∀ m, n ≤ m → m ≤ N → ∃ d, resp m = .ok d ∧ isTerminalDoc d = false)
    (hdead : ∀ m, n ≤ m → m < N → m * interval ≤ timeout)
    (hN : N * interval > timeout) (hn : n ≤ N) :
    pollLoop resp timeout interval hpos n = (timeoutDoc, N + 1) := by
  obtain ⟨k, hk⟩ : ∃ k, N - n = k := ⟨N - n, rfl⟩
  induction k generalizing n with
  | zero =>
      have hnN : n = N := by omega
      subst hnN
      obtain ⟨d, hd, hdt⟩ := hok n le_rfl le_rfl
      exact pollLoop_timeout resp timeout interval hpos n d hd hdt hN
  | succ k ih =>
      have hlt : n < N := by omega
      obtain ⟨d, hd, hdt⟩ := hok n le_rfl (by omega)
      have hstep := pollLoop_step resp timeout interval hpos n d hd hdt
        (by simpa using hdead n le_rfl hlt)
      rw [hstep]
      exact ih (n + 1) (fun m h1 h2 => hok m (by omega) h2)
        (fun m h1 h2 => hdead m (by omega) h2) (by omega) (by omega)

/-- Trace lemma: if every status request from `n` up to (excluding) `N`
yields a non-terminal document within the deadline, and the request at `N`
raises a transport exception, the loop returns the synthetic ERROR document
carrying the exception text, after `N + 1` requests. -/
theorem pollLoop_error (resp : Nat → PollResp)
    (timeout interval : Nat) (hpos : 0 < interval) (n N : Nat) (msg : String)
    (hok : ∀ m, n ≤ m → m < N → ∃ d, resp m = .ok d ∧ isTerminalDoc d = false)
    (hdead : ∀ m, n ≤ m → m < N → m * interval ≤ timeout)
    (hN : resp N = .exn msg) (hn : n ≤ N) :
    pollLoop resp timeout interval hpos n = (errorDoc msg, N + 1) := by
  obtain ⟨k, hk⟩ : ∃ k, N - n = k := ⟨N - n, rfl⟩
  induction k generalizing n with
  | zero =>
      have hnN : n = N := by omega
      subst hnN
      exact pollLoop_exn resp timeout interval hpos n msg hN
  | succ k ih =>
      have hlt : n < N := by omega
      obtain ⟨d, hd, hdt⟩ := hok n le_rfl hlt
      have hstep := pollLoop_step resp timeout interval hpos n d hd hdt
        (by simpa using hdead n le_rfl hlt)
      rw [hstep]
      exact ih (n + 1) (fun m h1 h2 => hok m (by omega) h2)
        (fun m h1 h2 => hdead m (by omega) h2) (by omega) (by omega)

/-! ### Lemmas about the step loop of main -/

theorem mainRun_all_success (H : StepHandlers) (l : List String)
    (h : ∀ s ∈ l, dispatchStep H s = some true) :
    mainRun H l = (l, 0) := by
  induction l with
  | nil => rfl
  | cons s rest ih =>
      have hs := h s (by simp)
      simp only [mainRun, hs]
      rw [ih (fun t ht => h t (by simp [ht]))]

theorem mainRun_exit_zero_no_failure (H : StepHandlers) (l : List String)
    (h : (mainRun H l).2 = 0) :
    ∀ t ∈ l, dispatchStep H t ≠ some false := by
  induction l with
  | nil => simp
  | cons s rest ih =>
      intro t ht
      rcases List.mem_cons.mp ht with hh | hh
      · subst hh
        intro hfail
        rw [mainRun, hfail] at h
        simp at h
      · rcases hdis : dispatchStep H s with _ | b
        · rw [mainRun, hdis] at h
          exact ih h t hh
        · cases b with
          | true =>
              rw [mainRun, hdis] at h
              exact ih h t hh
          | false =>
              rw [mainRun, hdis] at h
              simp at h

/-! ### Lemmas about the per-table upload loop -/

theorem uploadTables_success_iff (le uo : String → Bool) (ts : List String) :
    (uploadTables le uo ts).1 = true ↔
      ∀ t ∈ ts, le t = true → uo t = true := by
  induction ts with
  | nil => simp [uploadTables]
  | cons t rest ih =>
      simp only [uploadTables]
      by_cases hle : le t = false
      · rw [if_pos hle, ih]
        constructor
        · intro hall u hu hleu
          rcases List.mem_cons.mp hu with hh | hh
          · subst hh
            rw [hle] at hleu
            exact absurd hleu (by simp)
          · exact hall u hh hleu
        · intro hall u hu hleu
          exact hall u (by simp [hu]) hleu
      · have hle' : le t = true := by
          cases hlec : le t
          · exact absurd hlec hle
          · rfl
        rw [if_neg hle]
        by_cases huo : uo t = false
        · rw [if_pos huo]
          constructor
          · intro hfalse
            exact absurd hfalse (by simp)
          · intro hall
            have := hall t (by simp) hle'
            rw [huo] at this
            exact absurd this (by simp)
        · have huo' : uo t = true := by
            cases huoc : uo t
            · exact absurd huoc huo
            · rfl
          rw [if_neg huo]
          simp only []
          rw [ih]
          constructor
          · intro hall u hu hleu
            rcases List.mem_cons.mp hu with hh | hh
            · subst hh
              exact huo'
            · exact hall u hh hleu
          · intro hall u hu hleu
            exact hall u (by simp [hu]) hleu

theorem uploadTables_missing_not_attempted (le uo : String → Bool)
    (ts : List String) (t : String) (h : le t = false) :
    t ∉ (uploadTables le uo ts).2 := by
  induction ts with
  | nil => simp [uploadTables]
  | cons u rest ih =>
      simp only [uploadTables]
      by_cases hle : le u = false
      · rw [if_pos hle]
        exact ih
      · have hle' : le u = true := by
          cases hlec : le u
          · exact absurd hlec hle
          · rfl
        have hne : t ≠ u := by
          intro hh
          subst hh
          rw [h] at hle'
          exact absurd hle' (by simp)
        rw [if_neg hle]
        by_cases huo : uo u = false
        · rw [if_pos huo]
          simp [hne]
        · rw [if_neg huo]
          simp only [List.mem_cons, not_or]
          exact ⟨hne, ih⟩

theorem uploadTables_all_missing (le uo : String → Bool) (ts : List String)
    (h : ∀ t ∈ ts, le t = false) :
    uploadTables le uo ts = (true, []) := by
  induction ts with
  | nil => rfl
  | cons t rest ih =>
      have ht := h t (by simp)
      simp only [uploadTables]
      rw [if_pos ht]
      exact ih (fun u hu => h u (by simp [hu]))

/-! ### Claim C4 (corrected) -/

/-- Claim C4, counterexample: for the explicitly requested subset given as
`["benchmark", "data"]` (all handlers succeeding), the step loop of `main`
invokes the handlers in the input order — `benchmark` strictly before
`data` — refuting the claim that the data step is executed before the
benchmark step regardless of input order. -/
theorem C4_counterexample :
    (mainRun ⟨true, true, true, true, true, true, true⟩
        (resolveSteps ["benchmark", "data"])).1 = ["benchmark", "data"] ∧
    List.indexOf "benchmark"
        (mainRun ⟨true, true, true, true, true, true, true⟩
          (resolveSteps ["benchmark", "data"])).1 <
      List.indexOf "data"
        (mainRun ⟨true, true, true, true, true, true, true⟩
          (resolveSteps ["benchmark", "data"])).1 := by
  constructor
  · rfl
  · decide

/-- Claim C4 (amended): the Orchestrator executes an explicitly requested
step subset in the order the steps were given on input, not in the
canonical declared order; the canonical order
`[data, convert, upload, ddl, cross, benchmark, report]` is used only when
`all` is requested (in which case `resolveSteps` replaces the list by
`PIPELINE_STEPS`).  In particular, for the requested list
`[benchmark, data]` the benchmark step is executed before the data step. -/
theorem C4_theorem (H : StepHandlers) (steps : List String)
    (hall : ∀ s ∈ resolveSteps steps, dispatchStep H s = some true) :
    (mainRun H (resolveSteps steps)).1 = resolveSteps steps ∧
    ("all" ∈ steps → resolveSteps steps = PIPELINE_STEPS) := by
  refine ⟨?_, ?_⟩
  · rw [mainRun_all_success H _ hall]
  · intro hmem
    simp [resolveSteps, hmem]

/-- Claim C4, witness: for the requested list `["data", "benchmark"]` with
all handlers succeeding, the invoked trace is `["data", "benchmark"]`. -/
theorem C4_witness :
    (mainRun ⟨true, true, true, true, true, true, true⟩
        (resolveSteps ["data", "benchmark"])).1 =
      resolveSteps ["data", "benchmark"] :=
  (C4_theorem ⟨true, true, true, true, true, true, true⟩
    ["data", "benchmark"] (by decide)).1

/-! ### Claim C5 (confirmed) -/

/-- Claim C5: when a requested step fails, the step loop of `main` halts
immediately after the failing step — the invoked trace is exactly the
successful prefix followed by the failing step, so no handler of any later
requested step runs — and the process exits with code 1 (`sys.exit(1)`).
Conversely the exit code is 0 only when no executed step failed: an exit
code of 0 implies no step of the list has a failing handler. -/
theorem C5_theorem (H : StepHandlers) (pre post : List String) (s : String)
    (hpre : ∀ t ∈ pre, dispatchStep H t = some true)
    (hs : dispatchStep H s = some false) :
    mainRun H (pre ++ s :: post) = (pre ++ [s], 1) ∧
    (∀ l : List String, (mainRun H l).2 = 0 →
      ∀ t ∈ l, dispatchStep H t ≠ some false) := by
  refine ⟨?_, fun l hl => mainRun_exit_zero_no_failure H l hl⟩
  induction pre with
  | nil =>
      simp only [List.nil_append, mainRun, hs]
  | cons t rest ih =>
      have ht := hpre t (by simp)
      simp only [List.cons_append, mainRun, ht, List.append_eq]
      rw [ih (fun u hu => hpre u (by simp [hu]))]

/-- Claim C5, witness: with the conversion handler failing, the run of
`["data", "convert", "upload", "ddl"]` invokes exactly `data` then
`convert` and exits with code 1. -/
theorem C5_witness :
    mainRun ⟨true, false, true, true, true, true, true⟩
        (["data"] ++ "convert" :: ["upload", "ddl"]) =
      (["data"] ++ ["convert"], 1) :=
  (C5_theorem ⟨true, false, true, true, true, true, true⟩
    ["data"] ["upload", "ddl"] "convert" (by decide) (by decide)).1

/-! ### Claim C8 (code_bug) -/

/-- Claim C8, failing input: `run_shell_command` does raise to its caller.
When the process exits non-zero with captured output and the captured bytes
are not valid UTF-8 (here a single `0xFF` byte on stdout), the
`except CalledProcessError` handler's `e.stdout.decode("utf-8")` raises
`UnicodeDecodeError` out of the function — an `except` clause does not
catch exceptions raised in a sibling handler of the same `try`.  For
contrast, the same invalid bytes on a zero exit are decoded inside the
`try` body, caught, and converted to `(False, None, message)`, and an
ordinary non-zero exit with valid UTF-8 output is returned through the
`(success, stdout, stderr)` contract. -/
theorem C8_theorem :
    run_shell_command (.completed 1 [0xFF] []) true =
      .error "UnicodeDecodeError" ∧
    run_shell_command (.completed 0 [0xFF] []) true =
      .ok (false, none, some "UnicodeDecodeError") ∧
    run_shell_command (.completed 1 [98, 111, 111, 109] []) true =
      .ok (false, some "boom", some "") ∧
    (∀ o : PyOpOutcome, (run_python_operation o).1 = true ∨
      (run_python_operation o).1 = false) := by
  refine ⟨rfl, rfl, rfl, ?_⟩
  intro o
  cases (run_python_operation o).1
  · exact Or.inr rfl
  · exact Or.inl rfl

/-! ### Claim C10 (confirmed) -/

/-- Claim C10: in both upload units (simple-auth and Kerberized with a
ticket), a table whose local source directory does not exist is skipped —
it is never attempted and does not affect the result — so the unit succeeds
exactly when every table whose directory exists uploads successfully; in
particular, when no table directory exists at all the unit returns success
having uploaded nothing, while a table whose directory exists but whose
upload fails makes the unit fail. -/
theorem C10_theorem (le uo : String → Bool) :
    ((upload_to_simple_auth_hdfs true le uo).1 = true ↔
      ∀ t ∈ TPC_DS_TABLES, le t = true → uo t = true) ∧
    (∀ t ∈ TPC_DS_TABLES, le t = false →
      t ∉ (upload_to_simple_auth_hdfs true le uo).2) ∧
    ((∀ t ∈ TPC_DS_TABLES, le t = false) →
      upload_to_simple_auth_hdfs true le uo = (true, [])) ∧
    upload_to_kerberized_hdfs true false true le uo =
      upload_to_simple_auth_hdfs true le uo := by
  refine ⟨?_, ?_, ?_, ?_⟩
  · simpa [upload_to_simple_auth_hdfs] using
      uploadTables_success_iff le uo TPC_DS_TABLES
  · intro t _ hle
    simpa [upload_to_simple_auth_hdfs] using
      uploadTables_missing_not_attempted le uo TPC_DS_TABLES t hle
  · intro hall
    simpa [upload_to_simple_auth_hdfs] using
      uploadTables_all_missing le uo TPC_DS_TABLES hall
  · rfl

/-- Claim C10, witness: with every local table directory absent, the
simple-auth unit returns success with an empty upload trace. -/
theorem C10_witness :
    upload_to_simple_auth_hdfs true (fun _ => false) (fun _ => false) =
      (true, []) :=
  (C10_theorem (fun _ => false) (fun _ => false)).2.2.1 (by decide)

/-! ### Claim C1 (corrected) -/

/-- Claim C1, counterexample: with `timeout = 1`, `interval = 1` and the
response stream `respC1`, every status fetch within the deadline (elapsed
times 0 and 1) returns the non-terminal RUNNING state — so the deadline
elapses before any terminal remote state is observed — yet `poll` returns
the COMPLETED status fetched at the first post-deadline check (elapsed 2),
not the synthetic TIMEOUT: the loop tests for a terminal state before it
tests the deadline. -/
theorem C1_counterexample :
    respC1 0 = .ok runningDoc ∧
    respC1 1 = .ok runningDoc ∧
    isTerminalDoc runningDoc = false ∧
    pollJobStatus respC1 1 1 (by decide) = (completedDoc, 3) ∧
    jobStateIs (pollJobStatus respC1 1 1 (by decide)).1 "TIMEOUT" = false ∧
    jobStateIs (pollJobStatus respC1 1 1 (by decide)).1 "COMPLETED" = true := by
  have hp : (0 : Nat) < 1 := by decide
  have h0 : pollLoop respC1 1 1 hp 0 = pollLoop respC1 1 1 hp 1 :=
    pollLoop_step respC1 1 1 hp 0 runningDoc rfl rfl (by omega)
  have h1 : pollLoop respC1 1 1 hp 1 = pollLoop respC1 1 1 hp 2 :=
    pollLoop_step respC1 1 1 hp 1 runningDoc rfl rfl (by omega)
  have h2 : pollLoop respC1 1 1 hp 2 = (completedDoc, 3) :=
    pollLoop_terminal respC1 1 1 hp 2 completedDoc rfl rfl
  have hall : pollJobStatus respC1 1 1 hp = (completedDoc, 3) := by
    rw [pollJobStatus, h0, h1, h2]
  exact ⟨rfl, rfl, rfl, hall, by rw [hall]; rfl, by rw [hall]; rfl⟩

/-- Claim C1 (amended): whenever every status fetch up to and including the
first one past the deadline returns a non-terminal state with no transport
exception among them, `poll` returns the synthetic TIMEOUT status after
exactly one request per iteration, and — poll being a total function into
status documents — does not raise.  (A terminal state arriving exactly at
the first post-deadline fetch is instead returned as that terminal status,
because the loop checks for a terminal state before checking the
deadline.) -/
theorem C1_theorem (resp : Nat → PollResp) (timeout interval N : Nat)
    (hpos : 0 < interval)
    (hok : ∀ m, m ≤ N → ∃ d, resp m = .ok d ∧ isTerminalDoc d = false)
    (hdead : ∀ m, m < N → m * interval ≤ timeout)
    (hN : N * interval > timeout) :
    pollJobStatus resp timeout interval hpos = (timeoutDoc, N + 1) ∧
    getD timeoutDoc "jobState" = some (.str "TIMEOUT") := by
  refine ⟨?_, rfl⟩
  exact pollLoop_times_out resp timeout interval hpos 0 N
    (fun m _ hm => hok m hm) (fun m _ hm => hdead m hm) hN (Nat.zero_le N)

/-- Claim C1, witness: a stream answering RUNNING forever, polled with
`timeout = 2`, `interval = 1`, returns the synthetic TIMEOUT status after 4
status requests (elapsed times 0, 1, 2, 3). -/
theorem C1_witness :
    pollJobStatus (fun _ => .ok runningDoc) 2 1 (by decide) =
      (timeoutDoc, 4) :=
  (C1_theorem (fun _ => .ok runningDoc) 2 1 3 (by decide)
    (fun m _ => ⟨runningDoc, rfl, rfl⟩)
    (fun m hm => by omega) (by omega)).1

/-! ### Claim C2 (confirmed) -/

/-- Claim C2: if every status request before iteration `N` returns a
non-terminal state within the deadline, and the request at iteration `N`
raises a transport exception, `poll` catches it and returns the synthetic
ERROR status carrying the exception text, after exactly `N + 1` requests.
The polling model is a total function into status documents, which is the
shallow rendering of the source property that `_poll_job_status` always
returns a status object and never propagates an exception (its loop body
sits inside `try` with a handler catching every `Exception`). -/
theorem C2_theorem (resp : Nat → PollResp) (timeout interval N : Nat)
    (msg : String) (hpos : 0 < interval)
    (hok : ∀ m, m < N → ∃ d, resp m = .ok d ∧ isTerminalDoc d = false)
    (hdead : ∀ m, m < N → m * interval ≤ timeout)
    (hN : resp N = .exn msg) :
    pollJobStatus resp timeout interval hpos = (errorDoc msg, N + 1) ∧
    getD (errorDoc msg) "jobState" = some (.str "ERROR") ∧
    getD (errorDoc msg) "error" = some (.str msg) := by
  refine ⟨?_, rfl, rfl⟩
  exact pollLoop_error resp timeout interval hpos 0 N msg
    (fun m _ hm => hok m hm) (fun m _ hm => hdead m hm) hN (Nat.zero_le N)

/-- Claim C2, witness: RUNNING on the first request, a transport exception
on the second; `poll` returns the ERROR status carrying the exception text
after 2 requests. -/
theorem C2_witness :
    pollJobStatus respC2 60 1 (by decide) =
      (errorDoc "Connection aborted", 2) :=
  (C2_theorem respC2 60 1 1 "Connection aborted" (by decide)
    (fun m hm => by
      have hm0 : m = 0 := by omega
      subst hm0
      exact ⟨runningDoc, rfl, rfl⟩)
    (fun m hm => by omega) rfl).1

/-! ### Claim C3 (confirmed) -/

/-- Claim C3: in the concrete scenario — submit `"SELECT 1"`, remote job id
`"job-42"`, first status response RUNNING, second COMPLETED — `run_query`
returns metrics with status COMPLETED after exactly 2 status requests; and
in general, whenever the first terminal response arrives at iteration `N`
within the deadline (all earlier responses non-terminal), polling under
`run_query`'s defaults (`timeout=3600, interval=1`) returns that terminal
status after exactly `N + 1` status requests — one per iteration, no early
exit before the terminal state, none after it. -/
theorem C3_theorem :
    runQuery true true (CVal.str "q1") "SELECT 1"
        (.ok [("id", CVal.str "job-42")]) respC3 none =
      some ([("query_name", CVal.str "q1"),
             ("job_id", CVal.str "job-42"),
             ("status", CVal.str "COMPLETED"),
             ("query", CVal.str "SELECT 1")], 2) ∧
    (∀ (resp : Nat → PollResp) (N : Nat) (d : CDict),
      (∀ m, m < N → ∃ d₀, resp m = .ok d₀ ∧ isTerminalDoc d₀ = false) →
      (∀ m, m < N → m * 1 ≤ 3600) →
      resp N = .ok d → isTerminalDoc d = true →
      pollJobStatus resp 3600 1 (by decide) = (d, N + 1)) := by
  constructor
  · have hp : (0 : Nat) < 1 := by decide
    have hpoll : pollJobStatus respC3 3600 1 hp = (completedDoc, 2) := by
      have h0 : pollLoop respC3 3600 1 hp 0 = pollLoop respC3 3600 1 hp 1 :=
        pollLoop_step respC3 3600 1 hp 0 runningDoc rfl rfl (by omega)
      have h1 : pollLoop respC3 3600 1 hp 1 = (completedDoc, 2) :=
        pollLoop_terminal respC3 3600 1 hp 1 completedDoc rfl rfl
      rw [pollJobStatus, h0, h1]
    simp only [runQuery]
    rw [hpoll]
    rfl
  · intro resp N d hok hdead hN hterm
    exact pollLoop_reaches_terminal resp 3600 1 (by decide) 0 N d
      (fun m _ hm => hok m hm) (fun m _ hm => hdead m hm) hN hterm
      (Nat.zero_le N)

/-- Claim C3, witness for the generalized conjunct: a stream answering
COMPLETED immediately is polled with exactly one status request. -/
theorem C3_witness :
    pollJobStatus (fun _ => .ok completedDoc) 3600 1 (by decide) =
      (completedDoc, 1) :=
  C3_theorem.2 (fun _ => .ok completedDoc) 0 completedDoc
    (fun m hm => absurd hm (by omega)) (fun m hm => by omega) rfl rfl

/-! ### Claim C9 (code_bug) -/

/-- Claim C9, failing input: comparing a record set's summary with itself.
For the single COMPLETED record with execution time 2 the baseline mean is
2 (non-zero), so the claim expects a zero absolute and zero percentage
delta for the group key `q1`.  The code instead produces `NaN` for both:
`generate_comparison_report` assigns label-indexed Series into a comparison
frame whose index is the default integer `RangeIndex`, so pandas alignment
finds no matching labels and fills every delta column with `NaN`.  No
division error is raised — the model is a total function — but the zero
deltas the claim requires never appear. -/
theorem C9_theorem :
    frameLookup (generate_comparison_report [benchRecordQ1] [benchRecordQ1])
        "time_diff" (.str "q1") = none ∧
    frameLookup (generate_comparison_report [benchRecordQ1] [benchRecordQ1])
        "time_diff_pct" (.str "q1") = none ∧
    frameLookup (generate_summary_statistics [benchRecordQ1])
        "avg_execution_time" (.str "q1") = some (.num 2) ∧
    (none : PdCell) ≠ some (.num 0) := by
  refine ⟨?_, ?_, ?_, ?_⟩
  · rfl
  · rfl
  · simp [frameLookup, frameColSeries, frameColVals, generate_summary_statistics,
      seriesGet, benchRecordQ1, sortStrings, insertSorted, groupMean,
      groupMin, groupMax, groupSuccessRate]
  · simp

/-! ### Lemmas relating dotted-key lookup to the section traversals of
validate -/

theorem isEmpty_false_of_mem {α : Type} {a : α} {l : List α} (h : a ∈ l) :
    l.isEmpty = false := by
  cases l
  · simp at h
  · rfl

theorem getPath_single (d : CDict) (k : String) :
    getPath (.dict d) [k] = getD d k := by
  cases hg : getD d k <;> simp [getPath, hg]

theorem getPath_section (c : CDict) (k k' : String) (ks : List String)
    (d : CDict) (h : getSectionDict c k = some d) :
    getPath (.dict c) (k :: k' :: ks) = getPath (.dict d) (k' :: ks) := by
  unfold getSectionDict at h
  cases hg : getD c k with
  | none =>
      rw [hg] at h
      simp only [Option.some.injEq] at h
      subst h
      simp [getPath, hg, getD]
  | some v =>
      rw [hg] at h
      cases v with
      | dict dd =>
          simp only [Option.some.injEq] at h
          subst h
          simp [getPath, hg]
      | str s => exact Option.noConfusion h
      | int n => exact Option.noConfusion h
      | bool b => exact Option.noConfusion h
      | list xs => exact Option.noConfusion h

theorem cfgGet_dotted (c : CDict) (key : String) (ks : List String)
    (hc : pyContainsChar '.' key = true) (hs : pySplitOnChar '.' key = ks) :
    cfgGet c key = getPath (.dict c) ks := by
  rw [cfgGet, if_pos hc, hs]

/-! ### Lemmas for the idempotence of the environment overrides -/

theorem getD_applyField_ne (k k' : String) (w : Option CVal) (d : CDict)
    (h : k' ≠ k) : getD (applyField k w d) k' = getD d k' := by
  cases w with
  | none => rfl
  | some v => exact getD_setD_ne d k k' v h

theorem getD_applyField_self (k : String) (w : Option CVal) (d : CDict)
    (v : CVal) (h : w = some v) : getD (applyField k w d) k = some v := by
  subst h
  exact getD_setD_self d k v

theorem applyField_of_getD (k : String) (w : Option CVal) (d : CDict)
    (h : ∀ v, w = some v → getD d k = some v) : applyField k w d = d := by
  cases w with
  | none => rfl
  | some v => exact setD_of_getD d k v (h v rfl)

theorem getD_applyFields_not_mem (ups : List (String × Option CVal))
    (d : CDict) (k : String) (h : k ∉ ups.map Prod.fst) :
    getD (applyFields ups d) k = getD d k := by
  induction ups generalizing d with
  | nil => rfl
  | cons p rest ih =>
      obtain ⟨k₀, w₀⟩ := p
      simp only [List.map_cons, List.mem_cons, not_or] at h
      rw [applyFields, List.foldl_cons]
      rw [show (List.foldl (fun d kv => applyField kv.1 kv.2 d)
          (applyField k₀ w₀ d) rest) = applyFields rest (applyField k₀ w₀ d)
          from rfl]
      rw [ih (applyField k₀ w₀ d) h.2]
      exact getD_applyField_ne k₀ k w₀ d h.1

theorem getD_applyFields_mem (ups : List (String × Option CVal))
    (d : CDict) (k : String) (w : Option CVal) (v : CVal)
    (hnodup : (ups.map Prod.fst).Nodup) (hmem : (k, w) ∈ ups)
    (hw : w = some v) : getD (applyFields ups d) k = some v := by
  induction ups generalizing d with
  | nil => simp at hmem
  | cons p rest ih =>
      obtain ⟨k₀, w₀⟩ := p
      simp only [List.map_cons, List.nodup_cons] at hnodup
      rw [applyFields, List.foldl_cons]
      rw [show (List.foldl (fun d kv => applyField kv.1 kv.2 d)
          (applyField k₀ w₀ d) rest) = applyFields rest (applyField k₀ w₀ d)
          from rfl]
      rcases List.mem_cons.mp hmem with hh | hh
      · obtain ⟨rfl, rfl⟩ := Prod.mk.injEq .. ▸ hh
        rw [getD_applyFields_not_mem rest _ k hnodup.1]
        exact getD_applyField_self k w d v hw
      · exact ih (applyField k₀ w₀ d) hnodup.2 hh

theorem applyFields_of_getD (ups : List (String × Option CVal)) (d : CDict)
    (h : ∀ p ∈ ups, ∀ v, p.2 = some v → getD d p.1 = some v) :
    applyFields ups d = d := by
  induction ups with
  | nil => rfl
  | cons p rest ih =>
      obtain ⟨k₀, w₀⟩ := p
      rw [applyFields, List.foldl_cons]
      rw [show (List.foldl (fun d kv => applyField kv.1 kv.2 d)
          (applyField k₀ w₀ d) rest) = applyFields rest (applyField k₀ w₀ d)
          from rfl]
      rw [applyField_of_getD k₀ w₀ d (fun v hv => h (k₀, w₀) (by simp) v hv)]
      exact ih (fun p hp v hv => h p (by simp [hp]) v hv)

theorem applyFields_idem (ups : List (String × Option CVal)) (d : CDict)
    (hnodup : (ups.map Prod.fst).Nodup) :
    applyFields ups (applyFields ups d) = applyFields ups d := by
  apply applyFields_of_getD
  intro p hp v hv
  obtain ⟨k₀, w₀⟩ := p
  exact getD_applyFields_mem ups d k₀ w₀ v hnodup hp hv

theorem overrideEntry_post (ups : List (String × Option CVal))
    (name : String) (d d' : CDict)
    (h : overrideEntry ups name d = some d')
    (hnodup : (ups.map Prod.fst).Nodup) :
    entryFixedCond ups name d' := by
  unfold overrideEntry at h
  cases hgd : getD d name with
  | none =>
      rw [hgd] at h
      simp only [] at h
      rw [getD_setD_self d name (.dict [])] at h
      simp only [Option.some.injEq] at h
      subst h
      exact Or.inl ⟨applyFields ups [], getD_setD_self _ name _,
        applyFields_idem ups [] hnodup⟩
  | some v =>
      rw [hgd] at h
      simp only [] at h
      rw [hgd] at h
      cases v with
      | dict cc =>
          simp only [Option.some.injEq] at h
          subst h
          exact Or.inl ⟨applyFields ups cc, getD_setD_self _ name _,
            applyFields_idem ups cc hnodup⟩
      | str s =>
          rcases hany : ups.any (fun kv => kv.2.isSome) with _ | _ <;>
            rw [hany] at h
          · simp only [Bool.false_eq_true, if_false, Option.some.injEq] at h
            subst h
            exact Or.inr ⟨.str s, hgd, fun cc hcc => CVal.noConfusion hcc, hany⟩
          · simp at h
      | int n =>
          rcases hany : ups.any (fun kv => kv.2.isSome) with _ | _ <;>
            rw [hany] at h
          · simp only [Bool.false_eq_true, if_false, Option.some.injEq] at h
            subst h
            exact Or.inr ⟨.int n, hgd, fun cc hcc => CVal.noConfusion hcc, hany⟩
          · simp at h
      | bool b =>
          rcases hany : ups.any (fun kv => kv.2.isSome) with _ | _ <;>
            rw [hany] at h
          · simp only [Bool.false_eq_true, if_false, Option.some.injEq] at h
            subst h
            exact Or.inr ⟨.bool b, hgd, fun cc hcc => CVal.noConfusion hcc, hany⟩
          · simp at h
      | list xs =>
          rcases hany : ups.any (fun kv => kv.2.isSome) with _ | _ <;>
            rw [hany] at h
          · simp only [Bool.false_eq_true, if_false, Option.some.injEq] at h
            subst h
            exact Or.inr ⟨.list xs, hgd, fun cc hcc => CVal.noConfusion hcc, hany⟩
          · simp at h

theorem overrideEntry_of_fixed (ups : List (String × Option CVal))
    (name : String) (e : CDict) (h : entryFixedCond ups name e) :
    overrideEntry ups name e = some e := by
  unfold overrideEntry
  rcases h with ⟨cc, hget, hfix⟩ | ⟨v, hget, hnd, hany⟩
  · simp only [hget]
    rw [hfix, setD_of_getD e name (.dict cc) hget]
  · cases v with
    | dict cc => exact absurd rfl (hnd cc)
    | str s =>
        simp only [hget]
        rw [hany]
        simp
    | int n =>
        simp only [hget]
        rw [hany]
        simp
    | bool b =>
        simp only [hget]
        rw [hany]
        simp
    | list xs =>
        simp only [hget]
        rw [hany]
        simp

theorem getD_overrideEntry_ne (ups : List (String × Option CVal))
    (name : String) (d d' : CDict) (k : String)
    (h : overrideEntry ups name d = some d') (hk : k ≠ name) :
    getD d' k = getD d k := by
  unfold overrideEntry at h
  cases hgd : getD d name with
  | none =>
      rw [hgd] at h
      simp only [] at h
      rw [getD_setD_self d name (.dict [])] at h
      simp only [Option.some.injEq] at h
      subst h
      rw [getD_setD_ne _ name k _ hk, getD_setD_ne _ name k _ hk]
  | some v =>
      rw [hgd] at h
      simp only [] at h
      rw [hgd] at h
      cases v with
      | dict cc =>
          simp only [Option.some.injEq] at h
          subst h
          rw [getD_setD_ne _ name k _ hk]
      | str s =>
          rcases hany : ups.any (fun kv => kv.2.isSome) with _ | _ <;>
            rw [hany] at h
          · simp only [Bool.false_eq_true, if_false, Option.some.injEq] at h
            subst h
            rfl
          · simp at h
      | int n =>
          rcases hany : ups.any (fun kv => kv.2.isSome) with _ | _ <;>
            rw [hany] at h
          · simp only [Bool.false_eq_true, if_false, Option.some.injEq] at h
            subst h
            rfl
          · simp at h
      | bool b =>
          rcases hany : ups.any (fun kv => kv.2.isSome) with _ | _ <;>
            rw [hany] at h
          · simp only [Bool.false_eq_true, if_false, Option.some.injEq] at h
            subst h
            rfl
          · simp at h
      | list xs =>
          rcases hany : ups.any (fun kv => kv.2.isSome) with _ | _ <;>
            rw [hany] at h
          · simp only [Bool.false_eq_true, if_false, Option.some.injEq] at h
            subst h
            rfl
          · simp at h

theorem entryFixedCond_of_getD_eq (ups : List (String × Option CVal))
    (name : String) (d e : CDict) (hget : getD e name = getD d name)
    (h : entryFixedCond ups name d) : entryFixedCond ups name e := by
  unfold entryFixedCond at h ⊢
  rw [hget]
  exact h

theorem clusterUps_keys_nodup (env : EnvMap) (cluster : String) :
    ((clusterFieldUpdates env cluster).map Prod.fst).Nodup := by
  rw [show (clusterFieldUpdates env cluster).map Prod.fst =
      ["host", "port", "username", "password", "ssl"] from rfl]
  decide

theorem kerberizedUps_keys_nodup (env : EnvMap) :
    ((kerberizedFieldUpdates env).map Prod.fst).Nodup := by
  rw [show (kerberizedFieldUpdates env).map Prod.fst =
      ["principal", "keytab", "hadoop_bin", "hadoop_conf"] from rfl]
  decide

theorem simpleAuthUps_keys_nodup (env : EnvMap) :
    ((simpleAuthFieldUpdates env).map Prod.fst).Nodup := by
  rw [show (simpleAuthFieldUpdates env).map Prod.fst =
      ["user", "hadoop_bin", "hadoop_conf"] from rfl]
  decide

theorem pipelineUps_keys_nodup (env : EnvMap) :
    ((pipelineFieldUpdates env).map Prod.fst).Nodup := by
  rw [show (pipelineFieldUpdates env).map Prod.fst =
      ["hdfs_target_dir", "query_dir", "timeout_seconds", "num_iterations",
       "scale_factors", "formats"] from rfl]
  decide

theorem dataGenUps_keys_nodup (env : EnvMap) :
    ((dataGenFieldUpdates env).map Prod.fst).Nodup := by
  rw [show (dataGenFieldUpdates env).map Prod.fst = ["dsdgen_path"] from rfl]
  decide

theorem overrideClusterConfig_post (env : EnvMap) (c c' : CDict)
    (h : overrideClusterConfig env c = some c') :
    ∃ cl, getD c' "clusters" = some (CVal.dict cl) ∧
      overrideEntry (clusterFieldUpdates env "dremio_a") "dremio_a" cl =
        some cl ∧
      overrideEntry (clusterFieldUpdates env "dremio_b") "dremio_b" cl =
        some cl := by
  unfold overrideClusterConfig at h
  cases hgc : getD c "clusters" with
  | none =>
      simp only [hgc] at h
      rw [getD_setD_self c "clusters" (CVal.dict [])] at h
      simp only [] at h
      rcases hA : overrideEntry (clusterFieldUpdates env "dremio_a")
          "dremio_a" [] with _ | cl₁ <;> rw [hA] at h <;> simp only [] at h
      · cases h
      · rcases hB : overrideEntry (clusterFieldUpdates env "dremio_b")
            "dremio_b" cl₁ with _ | cl₂ <;> rw [hB] at h <;> simp only [] at h
        · cases h
        · simp only [Option.some.injEq] at h
          subst h
          refine ⟨cl₂, getD_setD_self _ _ _, ?_, ?_⟩
          · exact overrideEntry_of_fixed _ _ _
              (entryFixedCond_of_getD_eq _ "dremio_a" cl₁ cl₂
                (getD_overrideEntry_ne _ "dremio_b" cl₁ cl₂ "dremio_a" hB
                  (by decide))
                (overrideEntry_post _ "dremio_a" [] cl₁ hA
                  (clusterUps_keys_nodup env "dremio_a")))
          · exact overrideEntry_of_fixed _ _ _
              (overrideEntry_post _ "dremio_b" cl₁ cl₂ hB
                (clusterUps_keys_nodup env "dremio_b"))
  | some v =>
      simp only [hgc] at h
      cases v with
      | dict cl =>
          simp only [] at h
          rcases hA : overrideEntry (clusterFieldUpdates env "dremio_a")
              "dremio_a" cl with _ | cl₁ <;> rw [hA] at h <;> simp only [] at h
          · cases h
          · rcases hB : overrideEntry (clusterFieldUpdates env "dremio_b")
                "dremio_b" cl₁ with _ | cl₂ <;> rw [hB] at h <;> simp only [] at h
            · cases h
            · simp only [Option.some.injEq] at h
              subst h
              refine ⟨cl₂, getD_setD_self _ _ _, ?_, ?_⟩
              · exact overrideEntry_of_fixed _ _ _
                  (entryFixedCond_of_getD_eq _ "dremio_a" cl₁ cl₂
                    (getD_overrideEntry_ne _ "dremio_b" cl₁ cl₂ "dremio_a" hB
                      (by decide))
                    (overrideEntry_post _ "dremio_a" cl cl₁ hA
                      (clusterUps_keys_nodup env "dremio_a")))
              · exact overrideEntry_of_fixed _ _ _
                  (overrideEntry_post _ "dremio_b" cl₁ cl₂ hB
                    (clusterUps_keys_nodup env "dremio_b"))
      | str s => exact Option.noConfusion h
      | int n => exact Option.noConfusion h
      | bool b => exact Option.noConfusion h
      | list xs => exact Option.noConfusion h

theorem overrideClusterConfig_of_fixed (env : EnvMap) (e : CDict)
    (cl : CDict) (hget : getD e "clusters" = some (CVal.dict cl))
    (hA : overrideEntry (clusterFieldUpdates env "dremio_a") "dremio_a" cl =
      some cl)
    (hB : overrideEntry (clusterFieldUpdates env "dremio_b") "dremio_b" cl =
      some cl) :
    overrideClusterConfig env e = some e := by
  unfold overrideClusterConfig
  simp only [hget, hA, hB]
  rw [setD_of_getD e "clusters" (CVal.dict cl) hget]

theorem getD_overrideClusterConfig_ne (env : EnvMap) (c c' : CDict)
    (k : String) (h : overrideClusterConfig env c = some c')
    (hk : k ≠ "clusters") : getD c' k = getD c k := by
  unfold overrideClusterConfig at h
  cases hgc : getD c "clusters" with
  | none =>
      simp only [hgc] at h
      rw [getD_setD_self c "clusters" (CVal.dict [])] at h
      simp only [] at h
      rcases hA : overrideEntry (clusterFieldUpdates env "dremio_a")
          "dremio_a" [] with _ | cl₁ <;> rw [hA] at h <;> simp only [] at h
      · cases h
      · rcases hB : overrideEntry (clusterFieldUpdates env "dremio_b")
            "dremio_b" cl₁ with _ | cl₂ <;> rw [hB] at h <;> simp only [] at h
        · cases h
        · simp only [Option.some.injEq] at h
          subst h
          rw [getD_setD_ne _ "clusters" k _ hk, getD_setD_ne _ "clusters" k _ hk]
  | some v =>
      simp only [hgc] at h
      cases v with
      | dict cl =>
          simp only [] at h
          rcases hA : overrideEntry (clusterFieldUpdates env "dremio_a")
              "dremio_a" cl with _ | cl₁ <;> rw [hA] at h <;> simp only [] at h
          · cases h
          · rcases hB : overrideEntry (clusterFieldUpdates env "dremio_b")
                "dremio_b" cl₁ with _ | cl₂ <;> rw [hB] at h <;> simp only [] at h
            · cases h
            · simp only [Option.some.injEq] at h
              subst h
              rw [getD_setD_ne _ "clusters" k _ hk]
      | str s => exact Option.noConfusion h
      | int n => exact Option.noConfusion h
      | bool b => exact Option.noConfusion h
      | list xs => exact Option.noConfusion h

theorem overrideHdfsConfig_post (env : EnvMap) (c c' : CDict)
    (h : overrideHdfsConfig env c = some c') :
    ∃ hd, getD c' "hdfs" = some (CVal.dict hd) ∧
      overrideEntry (kerberizedFieldUpdates env) "kerberized" hd = some hd ∧
      overrideEntry (simpleAuthFieldUpdates env) "simple_auth" hd =
        some hd := by
  unfold overrideHdfsConfig at h
  cases hgc : getD c "hdfs" with
  | none =>
      simp only [hgc] at h
      rw [getD_setD_self c "hdfs" (CVal.dict [])] at h
      simp only [] at h
      rcases hA : overrideEntry (kerberizedFieldUpdates env) "kerberized" []
          with _ | hd₁ <;> rw [hA] at h <;> simp only [] at h
      · cases h
      · rcases hB : overrideEntry (simpleAuthFieldUpdates env) "simple_auth"
            hd₁ with _ | hd₂ <;> rw [hB] at h <;> simp only [] at h
        · cases h
        · simp only [Option.some.injEq] at h
          subst h
          refine ⟨hd₂, getD_setD_self _ _ _, ?_, ?_⟩
          · exact overrideEntry_of_fixed _ _ _
              (entryFixedCond_of_getD_eq _ "kerberized" hd₁ hd₂
                (getD_overrideEntry_ne _ "simple_auth" hd₁ hd₂ "kerberized" hB
                  (by decide))
                (overrideEntry_post _ "kerberized" [] hd₁ hA
                  (kerberizedUps_keys_nodup env)))
          · exact overrideEntry_of_fixed _ _ _
              (overrideEntry_post _ "simple_auth" hd₁ hd₂ hB
                (simpleAuthUps_keys_nodup env))
  | some v =>
      simp only [hgc] at h
      cases v with
      | dict hd =>
          simp only [] at h
          rcases hA : overrideEntry (kerberizedFieldUpdates env) "kerberized"
              hd with _ | hd₁ <;> rw [hA] at h <;> simp only [] at h
          · cases h
          · rcases hB : overrideEntry (simpleAuthFieldUpdates env)
                "simple_auth" hd₁ with _ | hd₂ <;> rw [hB] at h <;> simp only [] at h
            · cases h
            · simp only [Option.some.injEq] at h
              subst h
              refine ⟨hd₂, getD_setD_self _ _ _, ?_, ?_⟩
              · exact overrideEntry_of_fixed _ _ _
                  (entryFixedCond_of_getD_eq _ "kerberized" hd₁ hd₂
                    (getD_overrideEntry_ne _ "simple_auth" hd₁ hd₂
                      "kerberized" hB (by decide))
                    (overrideEntry_post _ "kerberized" hd hd₁ hA
                      (kerberizedUps_keys_nodup env)))
              · exact overrideEntry_of_fixed _ _ _
                  (overrideEntry_post _ "simple_auth" hd₁ hd₂ hB
                    (simpleAuthUps_keys_nodup env))
      | str s => exact Option.noConfusion h
      | int n => exact Option.noConfusion h
      | bool b => exact Option.noConfusion h
      | list xs => exact Option.noConfusion h

theorem overrideHdfsConfig_of_fixed (env : EnvMap) (e : CDict) (hd : CDict)
    (hget : getD e "hdfs" = some (CVal.dict hd))
    (hA : overrideEntry (kerberizedFieldUpdates env) "kerberized" hd =
      some hd)
    (hB : overrideEntry (simpleAuthFieldUpdates env) "simple_auth" hd =
      some hd) :
    overrideHdfsConfig env e = some e := by
  unfold overrideHdfsConfig
  simp only [hget, hA, hB]
  rw [setD_of_getD e "hdfs" (CVal.dict hd) hget]

theorem getD_overrideHdfsConfig_ne (env : EnvMap) (c c' : CDict)
    (k : String) (h : overrideHdfsConfig env c = some c')
    (hk : k ≠ "hdfs") : getD c' k = getD c k := by
  unfold overrideHdfsConfig at h
  cases hgc : getD c "hdfs" with
  | none =>
      simp only [hgc] at h
      rw [getD_setD_self c "hdfs" (CVal.dict [])] at h
      simp only [] at h
      rcases hA : overrideEntry (kerberizedFieldUpdates env) "kerberized" []
          with _ | hd₁ <;> rw [hA] at h <;> simp only [] at h
      · cases h
      · rcases hB : overrideEntry (simpleAuthFieldUpdates env) "simple_auth"
            hd₁ with _ | hd₂ <;> rw [hB] at h <;> simp only [] at h
        · cases h
        · simp only [Option.some.injEq] at h
          subst h
          rw [getD_setD_ne _ "hdfs" k _ hk, getD_setD_ne _ "hdfs" k _ hk]
  | some v =>
      simp only [hgc] at h
      cases v with
      | dict hd =>
          simp only [] at h
          rcases hA : overrideEntry (kerberizedFieldUpdates env) "kerberized"
              hd with _ | hd₁ <;> rw [hA] at h <;> simp only [] at h
          · cases h
          · rcases hB : overrideEntry (simpleAuthFieldUpdates env)
                "simple_auth" hd₁ with _ | hd₂ <;> rw [hB] at h <;> simp only [] at h
            · cases h
            · simp only [Option.some.injEq] at h
              subst h
              rw [getD_setD_ne _ "hdfs" k _ hk]
      | str s => exact Option.noConfusion h
      | int n => exact Option.noConfusion h
      | bool b => exact Option.noConfusion h
      | list xs => exact Option.noConfusion h

/-! ### Claim C6 (corrected) -/

/-- Claim C6, counterexample: the empty configuration document is missing
`hdfs.kerberized.principal`, yet `validate("upload")` short-circuits on the
`not self.config_data` check and returns `False` with the single error
`Configuration is empty` — the error list does not contain one entry for
every missing required key as the claim demands. -/
theorem C6_counterexample :
    validate [] "upload" = some (false, ["Configuration is empty"]) ∧
    "hdfs.kerberized.principal is required for upload step" ∉
      ["Configuration is empty"] ∧
    pyTruthyOpt (cfgGet [] "hdfs.kerberized.principal") = false :=
  ⟨rfl, by decide, rfl⟩

/-- Claim C6 (amended): for every NON-EMPTY configuration document on which
validation completes without raising (each traversed section is a mapping),
if the per-step required-key table is not satisfied then `validate(step)`
returns `False` together with a non-empty error list containing one entry
for every missing required key, not only the first; an empty document
instead short-circuits with the single error `Configuration is empty`. -/
theorem C6_theorem (c : CDict) (step : String) (ok : Bool) (errs : List String)
    (hne : c.isEmpty = false)
    (hv : validate c step = some (ok, errs))
    (hmiss : ∃ p ∈ specRequiredKeys step, pyTruthyOpt (cfgGet c p.1) = false) :
    ok = false ∧ errs ≠ [] ∧
    ∀ p ∈ specRequiredKeys step, pyTruthyOpt (cfgGet c p.1) = false →
      p.2 ∈ errs := by
  by_cases h1 : step = "data"
  · subst h1
    simp only [validate, hne, Bool.false_eq_true, if_false, String.reduceEq,
      if_true] at hv
    rcases hdg : getSectionDict c "data_generation" with _ | dg <;> rw [hdg] at hv
    · cases hv
    · simp only [] at hv
      rw [Option.some.injEq, Prod.mk.injEq] at hv
      obtain ⟨hok, herrs⟩ := hv
      have k₁ : pyTruthyOpt (cfgGet c "data_generation.dsdgen_path") =
          pyTruthyOpt (getD dg "dsdgen_path") := by
        rw [cfgGet_dotted c _ ["data_generation", "dsdgen_path"] (by decide)
            (by decide),
          getPath_section c "data_generation" "dsdgen_path" [] dg hdg,
          getPath_single]
      obtain ⟨p, hp, hpm⟩ := hmiss
      simp only [specRequiredKeys, String.reduceEq, if_true,
        List.mem_singleton] at hp
      subst hp
      rw [k₁] at hpm
      simp only [hpm, Bool.false_eq_true, if_false] at herrs hok
      refine ⟨by simpa using hok.symm, by rw [← herrs]; simp, ?_⟩
      intro p hp2 hm2
      simp only [specRequiredKeys, String.reduceEq, if_true,
        List.mem_singleton] at hp2
      subst hp2
      rw [← herrs]
      simp
  · by_cases h2 : step = "upload"
    · subst h2
      simp only [validate, hne, Bool.false_eq_true, if_false, String.reduceEq,
        if_true] at hv
      rcases hhd : getSectionDict c "hdfs" with _ | hd <;> rw [hhd] at hv
      · cases hv
      · simp only [] at hv
        rcases hsa : getSectionDict hd "simple_auth" with _ | sa <;>
          rcases hker : getSectionDict hd "kerberized" with _ | ker <;>
          rw [hsa, hker] at hv <;> simp only [] at hv
        · cases hv
        · cases hv
        · cases hv
        · rw [Option.some.injEq, Prod.mk.injEq] at hv
          obtain ⟨hok, herrs⟩ := hv
          have k₁ : pyTruthyOpt (cfgGet c "hdfs.simple_auth.hadoop_conf") =
              pyTruthyOpt (getD sa "hadoop_conf") := by
            rw [cfgGet_dotted c _ ["hdfs", "simple_auth", "hadoop_conf"]
                (by decide) (by decide),
              getPath_section c "hdfs" "simple_auth" ["hadoop_conf"] hd hhd,
              getPath_section hd "simple_auth" "hadoop_conf" [] sa hsa,
              getPath_single]
          have k₂ : pyTruthyOpt (cfgGet c "hdfs.kerberized.hadoop_conf") =
              pyTruthyOpt (getD ker "hadoop_conf") := by
            rw [cfgGet_dotted c _ ["hdfs", "kerberized", "hadoop_conf"]
                (by decide) (by decide),
              getPath_section c "hdfs" "kerberized" ["hadoop_conf"] hd hhd,
              getPath_section hd "kerberized" "hadoop_conf" [] ker hker,
              getPath_single]
          have k₃ : pyTruthyOpt (cfgGet c "hdfs.kerberized.keytab") =
              pyTruthyOpt (getD ker "keytab") := by
            rw [cfgGet_dotted c _ ["hdfs", "kerberized", "keytab"]
                (by decide) (by decide),
              getPath_section c "hdfs" "kerberized" ["keytab"] hd hhd,
              getPath_section hd "kerberized" "keytab" [] ker hker,
              getPath_single]
          have k₄ : pyTruthyOpt (cfgGet c "hdfs.kerberized.principal") =
              pyTruthyOpt (getD ker "principal") := by
            rw [cfgGet_dotted c _ ["hdfs", "kerberized", "principal"]
                (by decide) (by decide),
              getPath_section c "hdfs" "kerberized" ["principal"] hd hhd,
              getPath_section hd "kerberized" "principal" [] ker hker,
              getPath_single]
          have hmem : ∀ p ∈ specRequiredKeys "upload",
              pyTruthyOpt (cfgGet c p.1) = false → p.2 ∈ errs := by
            intro p hp2 hm2
            simp only [specRequiredKeys, String.reduceEq, if_false, if_true,
              List.mem_cons, List.mem_singleton, List.not_mem_nil,
              or_false] at hp2
            rw [← herrs]
            rcases hp2 with rfl | rfl | rfl | rfl
            · rw [k₁] at hm2
              simp [hm2]
            · rw [k₂] at hm2
              simp [hm2]
            · rw [k₃] at hm2
              simp [hm2]
            · rw [k₄] at hm2
              simp [hm2]
          obtain ⟨p, hp, hpm⟩ := hmiss
          have hin : p.2 ∈ errs := hmem p hp hpm
          refine ⟨?_, List.ne_nil_of_mem hin, hmem⟩
          rw [← hok, herrs]
          exact isEmpty_false_of_mem hin
    · by_cases h3 : step = "ddl"
      · subst h3
        simp only [validate, hne, Bool.false_eq_true, if_false,
          String.reduceEq, if_true, true_or, or_true, false_or] at hv
        rcases hcl : getSectionDict c "clusters" with _ | cl <;> rw [hcl] at hv
        · cases hv
        · simp only [] at hv
          rcases hda : getSectionDict cl "dremio_a" with _ | da <;>
            rcases hdb : getSectionDict cl "dremio_b" with _ | db <;>
            rw [hda, hdb] at hv <;> simp only [] at hv
          · cases hv
          · cases hv
          · cases hv
          · rw [Option.some.injEq, Prod.mk.injEq] at hv
            obtain ⟨hok, herrs⟩ := hv
            have k₁ : pyTruthyOpt (cfgGet c "clusters.dremio_a.host") =
                pyTruthyOpt (getD da "host") := by
              rw [cfgGet_dotted c _ ["clusters", "dremio_a", "host"]
                  (by decide) (by decide),
                getPath_section c "clusters" "dremio_a" ["host"] cl hcl,
                getPath_section cl "dremio_a" "host" [] da hda,
                getPath_single]
            have k₂ : pyTruthyOpt (cfgGet c "clusters.dremio_b.host") =
                pyTruthyOpt (getD db "host") := by
              rw [cfgGet_dotted c _ ["clusters", "dremio_b", "host"]
                  (by decide) (by decide),
                getPath_section c "clusters" "dremio_b" ["host"] cl hcl,
                getPath_section cl "dremio_b" "host" [] db hdb,
                getPath_single]
            have hmem : ∀ p ∈ specRequiredKeys "ddl",
                pyTruthyOpt (cfgGet c p.1) = false → p.2 ∈ errs := by
              intro p hp2 hm2
              simp only [specRequiredKeys, String.reduceEq, if_false, if_true,
                true_or, or_true, false_or, List.mem_cons, List.mem_singleton,
                List.not_mem_nil, or_false] at hp2
              rw [← herrs]
              rcases hp2 with rfl | rfl
              · rw [k₁] at hm2
                simp [hm2]
              · rw [k₂] at hm2
                simp [hm2]
            obtain ⟨p, hp, hpm⟩ := hmiss
            have hin : p.2 ∈ errs := hmem p hp hpm
            refine ⟨?_, List.ne_nil_of_mem hin, hmem⟩
            rw [← hok, herrs]
            exact isEmpty_false_of_mem hin
      · by_cases h4 : step = "cross"
        · subst h4
          simp only [validate, hne, Bool.false_eq_true, if_false,
            String.reduceEq, if_true, true_or, or_true, false_or] at hv
          rcases hcl : getSectionDict c "clusters" with _ | cl <;> rw [hcl] at hv
          · cases hv
          · simp only [] at hv
            rcases hda : getSectionDict cl "dremio_a" with _ | da <;>
              rcases hdb : getSectionDict cl "dremio_b" with _ | db <;>
              rw [hda, hdb] at hv <;> simp only [] at hv
            · cases hv
            · cases hv
            · cases hv
            · rw [Option.some.injEq, Prod.mk.injEq] at hv
              obtain ⟨hok, herrs⟩ := hv
              have k₁ : pyTruthyOpt (cfgGet c "clusters.dremio_a.host") =
                  pyTruthyOpt (getD da "host") := by
                rw [cfgGet_dotted c _ ["clusters", "dremio_a", "host"]
                    (by decide) (by decide),
                  getPath_section c "clusters" "dremio_a" ["host"] cl hcl,
                  getPath_section cl "dremio_a" "host" [] da hda,
                  getPath_single]
              have k₂ : pyTruthyOpt (cfgGet c "clusters.dremio_b.host") =
                  pyTruthyOpt (getD db "host") := by
                rw [cfgGet_dotted c _ ["clusters", "dremio_b", "host"]
                    (by decide) (by decide),
                  getPath_section c "clusters" "dremio_b" ["host"] cl hcl,
                  getPath_section cl "dremio_b" "host" [] db hdb,
                  getPath_single]
              have hmem : ∀ p ∈ specRequiredKeys "cross",
                  pyTruthyOpt (cfgGet c p.1) = false → p.2 ∈ errs := by
                intro p hp2 hm2
                simp only [specRequiredKeys, String.reduceEq, if_false,
                  if_true, true_or, or_true, false_or, List.mem_cons,
                  List.mem_singleton, List.not_mem_nil, or_false] at hp2
                rw [← herrs]
                rcases hp2 with rfl | rfl
                · rw [k₁] at hm2
                  simp [hm2]
                · rw [k₂] at hm2
                  simp [hm2]
              obtain ⟨p, hp, hpm⟩ := hmiss
              have hin : p.2 ∈ errs := hmem p hp hpm
              refine ⟨?_, List.ne_nil_of_mem hin, hmem⟩
              rw [← hok, herrs]
              exact isEmpty_false_of_mem hin
        · by_cases h5 : step = "benchmark"
          · subst h5
            simp only [validate, hne, Bool.false_eq_true, if_false,
              String.reduceEq, if_true, true_or, or_true, false_or] at hv
            rcases hcl : getSectionDict c "clusters" with _ | cl <;>
              rw [hcl] at hv
            · cases hv
            · simp only [] at hv
              rcases hda : getSectionDict cl "dremio_a" with _ | da <;>
                rcases hdb : getSectionDict cl "dremio_b" with _ | db <;>
                rw [hda, hdb] at hv <;> simp only [] at hv
              · cases hv
              · cases hv
              · cases hv
              · rcases hpd : getSectionDict c "pipeline" with _ | pd <;>
                  rw [hpd] at hv
                · cases hv
                · simp only [] at hv
                  rw [Option.some.injEq, Prod.mk.injEq] at hv
                  obtain ⟨hok, herrs⟩ := hv
                  have k₁ : pyTruthyOpt (cfgGet c "clusters.dremio_a.host") =
                      pyTruthyOpt (getD da "host") := by
                    rw [cfgGet_dotted c _ ["clusters", "dremio_a", "host"]
                        (by decide) (by decide),
                      getPath_section c "clusters" "dremio_a" ["host"] cl hcl,
                      getPath_section cl "dremio_a" "host" [] da hda,
                      getPath_single]
                  have k₂ : pyTruthyOpt (cfgGet c "clusters.dremio_b.host") =
                      pyTruthyOpt (getD db "host") := by
                    rw [cfgGet_dotted c _ ["clusters", "dremio_b", "host"]
                        (by decide) (by decide),
                      getPath_section c "clusters" "dremio_b" ["host"] cl hcl,
                      getPath_section cl "dremio_b" "host" [] db hdb,
                      getPath_single]
                  have k₃ : pyTruthyOpt (cfgGet c "pipeline.query_dir") =
                      pyTruthyOpt (getD pd "query_dir") := by
                    rw [cfgGet_dotted c _ ["pipeline", "query_dir"]
                        (by decide) (by decide),
                      getPath_section c "pipeline" "query_dir" [] pd hpd,
                      getPath_single]
                  have hmem : ∀ p ∈ specRequiredKeys "benchmark",
                      pyTruthyOpt (cfgGet c p.1) = false → p.2 ∈ errs := by
                    intro p hp2 hm2
                    simp only [specRequiredKeys, String.reduceEq, if_false,
                      if_true, true_or, or_true, false_or, List.mem_cons,
                      List.mem_singleton, List.not_mem_nil, or_false] at hp2
                    rw [← herrs]
                    rcases hp2 with rfl | rfl | rfl
                    · rw [k₁] at hm2
                      simp [hm2]
                    · rw [k₂] at hm2
                      simp [hm2]
                    · rw [k₃] at hm2
                      simp [hm2]
                  obtain ⟨p, hp, hpm⟩ := hmiss
                  have hin : p.2 ∈ errs := hmem p hp hpm
                  refine ⟨?_, List.ne_nil_of_mem hin, hmem⟩
                  rw [← hok, herrs]
                  exact isEmpty_false_of_mem hin
          · exfalso
            simp [specRequiredKeys, h1, h2, h3, h4, h5] at hmiss

/-! ### Claim C7 (confirmed) -/

/-- Claim C7: applying the environment-variable overrides twice in
succession yields exactly the same resolved configuration as applying them
once — whenever the override application succeeds (does not raise), its
result is a fixed point of the application. -/
theorem C7_theorem (env : EnvMap) (c c' : CDict)
    (h : applyEnvironmentOverrides env c = some c') :
    applyEnvironmentOverrides env c' = some c' := by
  unfold applyEnvironmentOverrides at h ⊢
  rcases h1 : overrideClusterConfig env c with _ | c₁ <;> rw [h1] at h <;>
    simp only [] at h
  · cases h
  rcases h2 : overrideHdfsConfig env c₁ with _ | c₂ <;> rw [h2] at h <;>
    simp only [] at h
  · cases h
  rcases h3 : overridePipelineConfig env c₂ with _ | c₃ <;> rw [h3] at h <;>
    simp only [] at h
  · cases h
  have h3' : overrideEntry (pipelineFieldUpdates env) "pipeline" c₂ =
      some c₃ := h3
  have h4' : overrideEntry (dataGenFieldUpdates env) "data_generation" c₃ =
      some c' := h
  obtain ⟨cl, hclget, hclA, hclB⟩ := overrideClusterConfig_post env c c₁ h1
  obtain ⟨hd, hhdget, hhdA, hhdB⟩ := overrideHdfsConfig_post env c₁ c₂ h2
  have hpd : entryFixedCond (pipelineFieldUpdates env) "pipeline" c₃ :=
    overrideEntry_post _ "pipeline" c₂ c₃ h3' (pipelineUps_keys_nodup env)
  have hdg : entryFixedCond (dataGenFieldUpdates env) "data_generation" c' :=
    overrideEntry_post _ "data_generation" c₃ c' h4' (dataGenUps_keys_nodup env)
  have t1 : getD c' "clusters" = some (CVal.dict cl) := by
    rw [getD_overrideEntry_ne _ "data_generation" c₃ c' "clusters" h4'
        (by decide),
      getD_overrideEntry_ne _ "pipeline" c₂ c₃ "clusters" h3' (by decide),
      getD_overrideHdfsConfig_ne env c₁ c₂ "clusters" h2 (by decide)]
    exact hclget
  have t2 : getD c' "hdfs" = some (CVal.dict hd) := by
    rw [getD_overrideEntry_ne _ "data_generation" c₃ c' "hdfs" h4'
        (by decide),
      getD_overrideEntry_ne _ "pipeline" c₂ c₃ "hdfs" h3' (by decide)]
    exact hhdget
  have t3 : entryFixedCond (pipelineFieldUpdates env) "pipeline" c' :=
    entryFixedCond_of_getD_eq _ "pipeline" c₃ c'
      (getD_overrideEntry_ne _ "data_generation" c₃ c' "pipeline" h4'
        (by decide)) hpd
  have f1 : overrideClusterConfig env c' = some c' :=
    overrideClusterConfig_of_fixed env c' cl t1 hclA hclB
  have f2 : overrideHdfsConfig env c' = some c' :=
    overrideHdfsConfig_of_fixed env c' hd t2 hhdA hhdB
  have f3 : overridePipelineConfig env c' = some c' :=
    overrideEntry_of_fixed _ _ _ t3
  have f4 : overrideDataGenConfig env c' = some c' :=
    overrideEntry_of_fixed _ _ _ hdg
  simp only [f1, f2, f3]
  exact f4

/-- Claim C7, witness: the overrides of `envC7` applied to the empty
configuration produce a concrete resolved configuration that a second
application maps to itself. -/
theorem C7_witness :
    applyEnvironmentOverrides envC7
      [("clusters", .dict
          [("dremio_a", .dict [("host", .str "dremio-a.example")]),
           ("dremio_b", .dict [])]),
        ("hdfs", .dict
          [("kerberized", .dict []), ("simple_auth", .dict [])]),
        ("pipeline", .dict
          [("scale_factors", .list [.int 1, .int 10])]),
        ("data_generation", .dict [])] =
    some
      [("clusters", .dict
          [("dremio_a", .dict [("host", .str "dremio-a.example")]),
           ("dremio_b", .dict [])]),
        ("hdfs", .dict
          [("kerberized", .dict []), ("simple_auth", .dict [])]),
        ("pipeline", .dict
          [("scale_factors", .list [.int 1, .int 10])]),
        ("data_generation", .dict [])] :=
  C7_theorem envC7 [] _ rfl

/-- Claim C6, witness: a non-empty configuration missing exactly
`hdfs.kerberized.principal` makes `validate("upload")` return `False` with
that key's error message among (here: equal to) the errors. -/
theorem C6_witness :
    validate uploadCfgMissingPrincipal "upload" =
      some (false, ["hdfs.kerberized.principal is required for upload step"]) ∧
    "hdfs.kerberized.principal is required for upload step" ∈
      ["hdfs.kerberized.principal is required for upload step"] :=
  ⟨rfl,
    (C6_theorem uploadCfgMissingPrincipal "upload" false
        ["hdfs.kerberized.principal is required for upload step"] rfl rfl
        ⟨("hdfs.kerberized.principal",
          "hdfs.kerberized.principal is required for upload step"),
          by decide, rfl⟩).2.2
      ("hdfs.kerberized.principal",
        "hdfs.kerberized.principal is required for upload step")
      (by decide) rfl⟩

end DremioBench
